import Mathlib

/-!
Verification of the QR-generator codec layer (Test-QR-Generator).

JavaScript strings are embedded as `List Char`; every function below is a
direct translation of the corresponding function in the repository source
(file and symbol named in each doc comment).  Machine numbers produced by
`parseFloat` are modelled as exact rationals (plus NaN / infinity markers);
the clock reads of the event codec are modelled by explicit parameters.
-/

set_option maxRecDepth 10000

/-- JavaScript strings as lists of characters. -/
abbrev Str := List Char

/-- The character set matched by the JavaScript `\s` class and trimmed by
`String.prototype.trim` (ASCII whitespace plus the Unicode space
characters, no-break space, BOM and line separators). -/
def wsNat (n : Nat) : Bool :=
  n = 32 || n = 9 || n = 10 || n = 13 ||
  n = 11 || n = 12 ||
  n = 0xa0 || n = 0x1680 ||
  (0x2000 ≤ n && n ≤ 0x200a) ||
  n = 0x2028 || n = 0x2029 ||
  n = 0x202f || n = 0x205f ||
  n = 0x3000 || n = 0xfeff

/-- The whitespace class applied to a character. -/
def jsWhitespace (c : Char) : Bool := wsNat c.toNat

/-- JavaScript `String.prototype.trim`. -/
def jsTrim (s : Str) : Str :=
  ((s.dropWhile jsWhitespace).reverse.dropWhile jsWhitespace).reverse

/-- JavaScript `str.replace(/c/g, repl)` for a single-character pattern. -/
def replaceChar (target : Char) (repl : Str) (s : Str) : Str :=
  s.flatMap (fun c => if c = target then repl else [c])

/-- JavaScript `String.prototype.split` with a single-character separator. -/
def splitOnChar (sep : Char) : Str → List Str
  | [] => [[]]
  | x :: r =>
    if x = sep then [] :: splitOnChar sep r
    else
      match splitOnChar sep r with
      | [] => [[x]]
      | h :: t => (x :: h) :: t

/-- JavaScript `String.prototype.includes` (substring test). -/
def containsSub : Str → Str → Bool
  | n, [] => n.isEmpty
  | n, x :: t => n.isPrefixOf (x :: t) || containsSub n t

/- ===================================================================
   C1 — WiFi codec
   Source: src/src/scripts/components/wifi-qr-generator.js
   =================================================================== -/

/-- Source `escapeWiFiString` (wifi-qr-generator.js lines 132-141):
chained global replaces, backslash first, then semicolon, comma, quote. -/
def escapeWiFiString (s : Str) : Str :=
  replaceChar '"' ['\\', '"']
    (replaceChar ',' ['\\', ',']
      (replaceChar ';' ['\\', ';']
        (replaceChar '\\' ['\\', '\\'] s)))

/-- WiFi form data (ssid, password, security, hidden), strings as entered. -/
structure WiFiData where
  ssid : Str
  password : Str
  security : Str
  hidden : Bool
deriving DecidableEq

/-- Source `securityMap` lookup with its `|| 'WPA'` fallback. -/
def securityMap (s : Str) : Str :=
  if s = "WPA".data then "WPA".data
  else if s = "WPA3".data then "WPA".data
  else if s = "WEP".data then "WEP".data
  else if s = "nopass".data then "nopass".data
  else "WPA".data

/-- Source `formatWiFiString` (wifi-qr-generator.js lines 99-127). -/
def formatWiFiString (w : WiFiData) : Str :=
  let escapedSSID := escapeWiFiString w.ssid
  let escapedPassword := if w.password ≠ [] then escapeWiFiString w.password else []
  let securityType := securityMap w.security
  let hiddenFlag := if w.hidden then "true".data else "false".data
  "WIFI:T:".data ++ securityType ++ ";S:".data ++ escapedSSID ++ ";".data ++
    (if securityType ≠ "nopass".data ∧ escapedPassword ≠ [] then
      "P:".data ++ escapedPassword ++ ";".data
    else []) ++
  "H:".data ++ hiddenFlag ++ ";;".data

/-- Source `validateWiFiData` (wifi-qr-generator.js lines 146-192),
`true` exactly when the source returns `isValid: true`. -/
def validateWiFiData (w : WiFiData) : Bool :=
  ¬ w.ssid.isEmpty ∧ ¬ (jsTrim w.ssid).isEmpty ∧ w.ssid.length ≤ 32 ∧
  (w.security = "WPA".data ∨ w.security = "WPA3".data ∨
    w.security = "WEP".data ∨ w.security = "nopass".data) ∧
  (w.security ≠ "nopass".data →
    (¬ w.password.isEmpty ∧
     ((w.security = "WPA".data ∨ w.security = "WPA3".data) →
        8 ≤ w.password.length ∧ w.password.length ≤ 63) ∧
     (w.security = "WEP".data →
        (w.password.length = 5 ∨ w.password.length = 13 ∨
         (w.password.length = 10 ∧ w.password.all (fun c => c.isDigit || ('A' ≤ c && c ≤ 'F') || ('a' ≤ c && c ≤ 'f'))) ∨
         (w.password.length = 26 ∧ w.password.all (fun c => c.isDigit || ('A' ≤ c && c ≤ 'F') || ('a' ≤ c && c ≤ 'f')))))))

/-- The WiFi string grammar exactly as the specification words it:
`WIFI:T:<sec>;S:<ssid>;P:<pw>;H:<bool>;;` with `sec` mapping both WPA and
WPA3 to `WPA`, the `P:` field omitted for `nopass`, `H` the literal
`true`/`false`, ssid and password escaped. -/
def wifiSpecSec (s : Str) : Str :=
  if s = "WPA".data ∨ s = "WPA3".data then "WPA".data
  else if s = "WEP".data then "WEP".data
  else "nopass".data

/-- Spec-side WiFi grammar (for the refinement comparison in C1). -/
def wifiSpecFormat (w : WiFiData) : Str :=
  "WIFI:T:".data ++ wifiSpecSec w.security ++ ";S:".data ++
    escapeWiFiString w.ssid ++ ";".data ++
  (if w.security = "nopass".data then []
   else "P:".data ++ escapeWiFiString w.password ++ ";".data) ++
  "H:".data ++ (if w.hidden then "true".data else "false".data) ++ ";;".data

/-- The concrete example credential from the claim. -/
def homeWifi : WiFiData :=
  { ssid := "Home".data, password := "password123".data,
    security := "WPA".data, hidden := false }

theorem escapeWiFiString_ne_nil (s : Str) (h : s ≠ []) : escapeWiFiString s ≠ [] := by
  cases s with
  | nil => exact absurd rfl h
  | cons c t =>
    simp only [escapeWiFiString, replaceChar, List.flatMap_cons]
    by_cases h1 : c = '\\' <;> by_cases h2 : c = ';' <;> by_cases h3 : c = ',' <;>
      by_cases h4 : c = '"' <;> simp [h1, h2, h3, h4]

/-- C1: for every valid WiFi credential the encoder output matches the
claimed grammar `WIFI:T:<sec>;S:<ssid>;P:<pw>;H:<bool>;;` (WPA3 mapped to
WPA, `P:` omitted exactly for `nopass`, escaping applied with backslash
first), and the concrete example encodes as claimed. -/
theorem wifi_encode_matches_grammar :
    (∀ w : WiFiData, validateWiFiData w = true →
      formatWiFiString w = wifiSpecFormat w) ∧
    formatWiFiString homeWifi = "WIFI:T:WPA;S:Home;P:password123;H:false;;".data := by
  constructor
  · intro w hv
    simp only [validateWiFiData, decide_eq_true_eq] at hv
    obtain ⟨-, -, -, hsec, hpw⟩ := hv
    rcases hsec with h | h | h | h
    all_goals
      simp only [formatWiFiString, wifiSpecFormat, wifiSpecSec, securityMap, h]
    · have hne : w.password ≠ [] := by
        have := hpw (by rw [h]; decide)
        simpa [List.isEmpty_iff] using this.1
      simp [hne, escapeWiFiString_ne_nil w.password hne]
    · have hne : w.password ≠ [] := by
        have := hpw (by rw [h]; decide)
        simpa [List.isEmpty_iff] using this.1
      simp [hne, escapeWiFiString_ne_nil w.password hne]
    · have hne : w.password ≠ [] := by
        have := hpw (by rw [h]; decide)
        simpa [List.isEmpty_iff] using this.1
      simp [hne, escapeWiFiString_ne_nil w.password hne]
    · simp
  · decide

/-- C1 witness: the theorem applied at the concrete example credential. -/
theorem wifi_encode_matches_grammar_witness :
    formatWiFiString homeWifi = wifiSpecFormat homeWifi :=
  wifi_encode_matches_grammar.1 homeWifi (by decide)

/- ===================================================================
   C2 — IBAN mod-97 checksum
   Source: src/src/scripts/components/payment-form-validator.js
   lines 264-280, symbol validateIBANChecksum
   =================================================================== -/

/-- ASCII decimal digit (the JavaScript `[0-9]` class). -/
def isDigitChar (c : Char) : Bool := 48 ≤ c.toNat && c.toNat ≤ 57

/-- ASCII uppercase letter (the JavaScript `[A-Z]` class). -/
def isUpperAZ (c : Char) : Bool := 65 ≤ c.toNat && c.toNat ≤ 90

/-- Letter-to-number expansion used by the source: an uppercase letter is
replaced by the decimal digits of `charCode - 55`, every other character
is kept (this is the `replace(/[A-Z]/g, ...)` step). -/
def ibanExpandChar (c : Char) : Str :=
  if isUpperAZ c then (Nat.repr (c.toNat - 55)).data else [c]

/-- The rearranged string: first 4 characters moved to the end. -/
def ibanRearrange (s : Str) : Str := s.drop 4 ++ s.take 4

/-- One step of the source's running mod-97 loop; `none` models the NaN
that `parseInt` produces on a non-digit character. -/
def ibanModStep (r : Option Nat) (c : Char) : Option Nat :=
  match r with
  | none => none
  | some r => if isDigitChar c then some ((r * 10 + (c.toNat - 48)) % 97) else none

/-- Source `validateIBANChecksum`: rearrange, expand letters, then fold the
decimal digits through `remainder = (remainder*10 + digit) % 97` and
compare with 1. -/
def validateIBANChecksum (iban : Str) : Bool :=
  let numericString := (ibanRearrange iban).flatMap ibanExpandChar
  (numericString.foldl ibanModStep (some 0)) = some 1

/-- The value of a digit string read as one decimal number (used to state
that the loop computes that number mod 97). -/
def decimalValue (s : Str) : Nat :=
  s.foldl (fun a c => a * 10 + (c.toNat - 48)) 0

/-- The claim's example IBAN. -/
def ibanExample : Str := "DE89370400440532013000".data

theorem decimalValue_fold_shift (s : Str) (a : Nat)
    : s.foldl (fun a c => a * 10 + (c.toNat - 48)) a =
      a * 10 ^ s.length + decimalValue s := by
  induction s generalizing a with
  | nil => simp [decimalValue]
  | cons c t ih =>
    simp only [List.foldl_cons, decimalValue, List.length_cons]
    rw [ih, ih (0 * 10 + (c.toNat - 48))]
    ring

theorem ibanModStep_fold_eq (s : Str) (hs : s.all isDigitChar) (a : Nat) (ha : a < 97)
    : s.foldl ibanModStep (some a) =
      some ((s.foldl (fun a c => a * 10 + (c.toNat - 48)) a) % 97) := by
  induction s generalizing a with
  | nil => simp [Nat.mod_eq_of_lt ha]
  | cons c t ih =>
    simp only [List.all_cons, Bool.and_eq_true] at hs
    simp only [List.foldl_cons, ibanModStep, hs.1, if_true]
    rw [ih hs.2 _ (Nat.mod_lt _ (by norm_num)),
      decimalValue_fold_shift t ((a * 10 + (c.toNat - 48)) % 97),
      decimalValue_fold_shift t (a * 10 + (c.toNat - 48))]
    exact congrArg some
      (((Nat.mod_modEq (a * 10 + (c.toNat - 48)) 97).mul_right _).add_right _)

theorem iban_digit_expand (s : Str)
    (hs : s.all (fun c => isDigitChar c || isUpperAZ c))
    : (s.flatMap ibanExpandChar).all isDigitChar := by
  induction s with
  | nil => simp
  | cons c t ih =>
    simp only [List.all_cons, Bool.and_eq_true] at hs
    simp only [List.flatMap_cons, List.all_append, Bool.and_eq_true]
    refine ⟨?_, ih hs.2⟩
    rcases Bool.or_eq_true_iff.mp hs.1 with h | h
    · have hd := h
      simp only [isDigitChar, Bool.and_eq_true, decide_eq_true_eq] at hd
      have hu : isUpperAZ c = false := by
        simp only [isUpperAZ, Bool.and_eq_false_iff, decide_eq_false_iff_not]
        omega
      simp [ibanExpandChar, hu, h]
    · simp only [isUpperAZ, Bool.and_eq_true, decide_eq_true_eq] at h
      have hu : isUpperAZ c = true := by
        simp only [isUpperAZ, Bool.and_eq_true, decide_eq_true_eq]
        omega
      simp only [ibanExpandChar, hu, if_true]
      have hb : 10 ≤ c.toNat - 55 ∧ c.toNat - 55 ≤ 35 := by omega
      set v := c.toNat - 55 with hv
      obtain ⟨hb1, hb2⟩ := hb
      interval_cases v <;> decide

/-- C2: the checksum routine computes (rearranged, letter-expanded string
read as one decimal number) mod 97 and compares with 1; the example IBAN
validates true; and mutating any single digit of it makes it validate
false. -/
theorem iban_checksum_correct :
    (∀ s : Str, s.all (fun c => isDigitChar c || isUpperAZ c) = true →
      (validateIBANChecksum s = true ↔
        decimalValue ((ibanRearrange s).flatMap ibanExpandChar) % 97 = 1)) ∧
    validateIBANChecksum ibanExample = true ∧
    (∀ i : Fin 22, isDigitChar (ibanExample.getD i.val ' ') →
      ∀ d : Fin 10, Nat.digitChar d.val ≠ ibanExample.getD i.val ' ' →
        validateIBANChecksum (ibanExample.set i.val (Nat.digitChar d.val)) = false) := by
  refine ⟨?_, by decide, by decide⟩
  intro s hs
  have hall : ((ibanRearrange s).flatMap ibanExpandChar).all isDigitChar := by
    apply iban_digit_expand
    simp only [ibanRearrange, List.all_append, Bool.and_eq_true]
    constructor
    · exact List.all_eq_true.mpr (fun c hc => List.all_eq_true.mp hs c (List.mem_of_mem_drop hc))
    · exact List.all_eq_true.mpr (fun c hc => List.all_eq_true.mp hs c (List.mem_of_mem_take hc))
  simp only [validateIBANChecksum]
  rw [ibanModStep_fold_eq _ hall 0 (by norm_num)]
  simp [decimalValue]

/-- C2 witness: the equivalence applied at the example IBAN, and one
concrete single-digit mutation applied through the theorem. -/
theorem iban_checksum_correct_witness :
    (validateIBANChecksum ibanExample = true ↔
      decimalValue ((ibanRearrange ibanExample).flatMap ibanExpandChar) % 97 = 1) ∧
    validateIBANChecksum (ibanExample.set 4 (Nat.digitChar 0)) = false :=
  ⟨iban_checksum_correct.1 ibanExample (by decide),
   iban_checksum_correct.2.2 (4 : Fin 22) (by decide) (0 : Fin 10) (by decide)⟩

/- ===================================================================
   C10 — SMS message validator line-break restriction
   Source: src/src/scripts/components/sms-form-validator.js
   lines 169-186, symbol validateMessage
   =================================================================== -/

/-- Failure kinds of `validateMessage` (the source carries the
corresponding message strings). -/
inductive MsgErr where
  | tooLong : MsgErr
  | tooManyLineBreaks : MsgErr
deriving DecidableEq

/-- Result of `validateMessage`: a typed success (with normalized value)
or a typed error. -/
inductive MsgValidation where
  | ok (normalizedValue : Str) : MsgValidation
  | err (e : MsgErr) : MsgValidation
deriving DecidableEq

/-- Source `validateMessage` (sms-form-validator.js lines 169-186). -/
def validateMessage (v : Str) : MsgValidation :=
  if v.isEmpty then .ok []
  else if 160 < v.length then .err .tooLong
  else if containsSub ['\n'] v ∧ 5 < (splitOnChar '\n' v).length then
    .err .tooManyLineBreaks
  else .ok v

/-- C10: a message within the 160-character limit that contains a newline
and splits into more than 5 lines is rejected with the
too-many-line-breaks error. -/
theorem sms_message_line_break_limit (v : Str)
    (hlen : v.length ≤ 160)
    (hnl : containsSub ['\n'] v = true)
    (hlines : 5 < (splitOnChar '\n' v).length) :
    validateMessage v = .err .tooManyLineBreaks := by
  have hne : v.isEmpty = false := by
    cases v with
    | nil => simp [containsSub, List.isEmpty] at hnl
    | cons c t => rfl
  simp [validateMessage, hne, Nat.not_lt.mpr hlen, hnl, hlines]

/-- C10 witness: a six-line, 11-character message is rejected. -/
theorem sms_message_line_break_limit_witness :
    validateMessage "a\nb\nc\nd\ne\nf".data = .err .tooManyLineBreaks :=
  sms_message_line_break_limit "a\nb\nc\nd\ne\nf".data
    (by decide) (by decide) (by decide)

/- ===================================================================
   C7 — phone number normalization
   Source: src/src/scripts/components/sms-qr-generator.js
   lines 144-163, symbol formatPhoneNumber
   =================================================================== -/

/-- The character set kept by `phone.replace(/[^\d+]/g, '')`: digits and
every `+` sign, wherever it occurs. -/
def isPhoneKeep (c : Char) : Bool := isDigitChar c || c = '+'

/-- The prefixing logic of the source after cleaning: keep a string that
already starts with `+`; prefix `+1` to a bare 10-digit number; prefix
`+` to an 11-digit number starting with `1`; otherwise prefix `+`. -/
def phoneAddPrefix (clean : Str) : Str :=
  if clean.head? = some '+' then clean
  else if clean.length = 10 then '+' :: '1' :: clean
  else if clean.length = 11 ∧ clean.head? = some '1' then '+' :: clean
  else '+' :: clean

/-- Source `formatPhoneNumber` (sms-qr-generator.js lines 144-163). -/
def formatPhoneNumber (phone : Str) : Str :=
  if phone.isEmpty then []
  else phoneAddPrefix (phone.filter isPhoneKeep)

/-- The cleaning step exactly as the claim words it: strip every character
except digits and a LEADING `+` (a `+` anywhere else is dropped). -/
def claimedPhoneClean (phone : Str) : Str :=
  match phone with
  | '+' :: rest => '+' :: rest.filter isDigitChar
  | s => s.filter isDigitChar

/-- Phone normalization as the claim describes it (leading `+` only kept,
then the same prefixing rules). -/
def claimedNormalizePhone (phone : Str) : Str :=
  if phone.isEmpty then []
  else phoneAddPrefix (claimedPhoneClean phone)

/-- C7 counterexample: on input `12+34` the source keeps the interior `+`
and returns `+12+34`, while the claimed rule (digits and a leading `+`
only) would return `+1234`. -/
theorem phone_strip_counterexample :
    formatPhoneNumber "12+34".data = "+12+34".data ∧
    claimedNormalizePhone "12+34".data = "+1234".data ∧
    "+12+34".data ≠ "+1234".data := by
  refine ⟨by decide, by decide, by decide⟩

theorem phoneAddPrefix_head (clean : Str) : (phoneAddPrefix clean).head? = some '+' := by
  unfold phoneAddPrefix
  split
  · assumption
  · split
    · rfl
    · split <;> rfl

theorem phoneAddPrefix_keep (clean : Str) (h : ∀ c ∈ clean, isPhoneKeep c = true) :
    ∀ c ∈ phoneAddPrefix clean, isPhoneKeep c = true := by
  unfold phoneAddPrefix
  split
  · exact h
  · split
    · intro c hc
      simp only [List.mem_cons] at hc
      rcases hc with rfl | rfl | hc
      · rfl
      · rfl
      · exact h c hc
    · split
      all_goals
        intro c hc
        simp only [List.mem_cons] at hc
        rcases hc with rfl | hc
        · rfl
        · exact h c hc

theorem phoneAddPrefix_of_head (clean : Str) (h : clean.head? = some '+') :
    phoneAddPrefix clean = clean := by
  unfold phoneAddPrefix
  rw [if_pos h]

/-- C7 (amended): normalization keeps digits and every `+` sign, applies
the claimed prefixing rules, maps `5551234567` to `+15551234567`, and is
idempotent on every input. -/
theorem phone_normalize_idempotent :
    (∀ p : Str, formatPhoneNumber (formatPhoneNumber p) = formatPhoneNumber p) ∧
    formatPhoneNumber "5551234567".data = "+15551234567".data := by
  refine ⟨?_, by decide⟩
  intro p
  by_cases hp : p.isEmpty
  · simp [formatPhoneNumber, hp]
  · have hkeep : ∀ c ∈ phoneAddPrefix (p.filter isPhoneKeep), isPhoneKeep c = true :=
      phoneAddPrefix_keep _ (fun c hc => (List.mem_filter.mp hc).2)
    have hhead := phoneAddPrefix_head (p.filter isPhoneKeep)
    have key : formatPhoneNumber p = phoneAddPrefix (p.filter isPhoneKeep) := by
      simp [formatPhoneNumber, hp]
    rw [key]
    have hne : (phoneAddPrefix (p.filter isPhoneKeep)).isEmpty = false := by
      cases h : phoneAddPrefix (p.filter isPhoneKeep) with
      | nil => rw [h] at hhead; simp at hhead
      | cons c t => rfl
    simp only [formatPhoneNumber, hne, Bool.false_eq_true, if_false]
    rw [List.filter_eq_self.mpr hkeep]
    exact phoneAddPrefix_of_head _ hhead

/-- C7 witness: idempotence applied at the claim example number. -/
theorem phone_normalize_idempotent_witness :
    formatPhoneNumber (formatPhoneNumber "5551234567".data) =
      formatPhoneNumber "5551234567".data :=
  phone_normalize_idempotent.1 "5551234567".data

/- ===================================================================
   C9 — text codec
   Source: src/src/scripts/components/text-qr-generator.js
   generateQR (lines 22-52) and formatTextForQR (lines 185-203)
   =================================================================== -/

/-- JavaScript `String.prototype.trimEnd`. -/
def jsTrimEnd (s : Str) : Str := (s.reverse.dropWhile jsWhitespace).reverse

/-- The `replace(/\r\n/g, '\n')` pass (left-to-right, non-overlapping). -/
def replaceCRLF : Str → Str
  | '\r' :: '\n' :: r => '\n' :: replaceCRLF r
  | c :: r => c :: replaceCRLF r
  | [] => []

/-- Source line-ending normalization: `\r\n` then bare `\r` become `\n`. -/
def normalizeLineEndings (s : Str) : Str :=
  replaceChar '\r' ['\n'] (replaceCRLF s)

/-- The `replace(/\n{3,}/g, '\n\n')` pass: a maximal run of 3 or more
newlines becomes exactly two (the accumulator counts the newlines of the
current run already seen, so newlines after the second are dropped). -/
def collapseNewlinesAux : Nat → Str → Str
  | _, [] => []
  | k, '\n' :: r =>
    if 2 ≤ k then collapseNewlinesAux (k + 1) r
    else '\n' :: collapseNewlinesAux (k + 1) r
  | _, c :: r => c :: collapseNewlinesAux 0 r

/-- The collapse pass started outside any newline run. -/
def collapseNewlines (s : Str) : Str := collapseNewlinesAux 0 s

/-- Source `formatTextForQR` (text-qr-generator.js lines 185-203): trim,
normalize line endings, collapse 3+ newlines to 2, strip trailing
whitespace from each line. -/
def formatTextForQR (text : Str) : Str :=
  if text.isEmpty then []
  else
    List.intercalate ['\n']
      ((splitOnChar '\n' (collapseNewlines (normalizeLineEndings (jsTrim text)))).map jsTrimEnd)

/-- Rejection kinds of the text encode operation (`generateQR`). -/
inductive TextErr where
  | required : TextErr
  | empty : TextErr
  | tooLong : TextErr
deriving DecidableEq

/-- Source `generateQR` of TextQRGenerator (text-qr-generator.js lines
22-52) up to the QR rendering library call: the validation chain and the
payload actually encoded, which is only the trimmed text. -/
def textGenerateQR (text : Str) : Except TextErr Str :=
  if text.isEmpty then .error .required
  else
    let trimmed := jsTrim text
    if trimmed.isEmpty then .error .empty
    else if 2000 < trimmed.length then .error .tooLong
    else .ok trimmed

/-- The text encode operation exactly as the claim words it: trim,
normalize line endings, collapse 3+ newline runs to 2, reject
empty-after-trim or longer than 2000 characters. -/
def claimedTextEncode (text : Str) : Except TextErr Str :=
  let trimmed := jsTrim text
  if trimmed.isEmpty then .error .empty
  else if 2000 < trimmed.length then .error .tooLong
  else .ok (collapseNewlines (normalizeLineEndings trimmed))

/-- C9 counterexample: on `a\r\nb` the encode path returns the trimmed
input with its `\r\n` intact, not the normalized text the claim
describes. -/
theorem text_encode_counterexample :
    textGenerateQR "a\r\nb".data = .ok "a\r\nb".data ∧
    claimedTextEncode "a\r\nb".data = .ok "a\nb".data ∧
    ("a\r\nb".data : Str) ≠ "a\nb".data :=
  ⟨rfl, rfl, by decide⟩

/-- C9 (amended): the encode operation only trims and bounds-checks —
it returns the trimmed input verbatim and rejects input that is empty
after trimming or whose trimmed length exceeds 2000 — while line-ending
normalization, newline-run collapsing and per-line trailing-space removal
are implemented in the separate helper `formatTextForQR`, which the
encode path does not invoke. -/
theorem text_encode_trims_only :
    (∀ s : Str, s.isEmpty = true → textGenerateQR s = .error .required) ∧
    (∀ s : Str, s.isEmpty = false → (jsTrim s).isEmpty = true →
      textGenerateQR s = .error .empty) ∧
    (∀ s : Str, (jsTrim s).isEmpty = false → 2000 < (jsTrim s).length →
      textGenerateQR s = .error .tooLong) ∧
    (∀ s : Str, (jsTrim s).isEmpty = false → (jsTrim s).length ≤ 2000 →
      textGenerateQR s = .ok (jsTrim s)) ∧
    (∀ s : Str, s.isEmpty = false →
      formatTextForQR s =
        List.intercalate ['\n']
          ((splitOnChar '\n' (collapseNewlines (normalizeLineEndings (jsTrim s)))).map
            jsTrimEnd)) := by
  refine ⟨?_, ?_, ?_, ?_, ?_⟩
  · intro s h
    simp [textGenerateQR, h]
  · intro s h1 h2
    simp [textGenerateQR, h1, h2]
  · intro s h1 h2
    have hs : s.isEmpty = false := by
      cases s with
      | nil => simp [jsTrim] at h1
      | cons c t => rfl
    simp [textGenerateQR, hs, h1, h2]
  · intro s h1 h2
    have hs : s.isEmpty = false := by
      cases s with
      | nil => simp [jsTrim] at h1
      | cons c t => rfl
    simp [textGenerateQR, hs, h1, Nat.not_lt.mpr h2]
  · intro s h
    simp [formatTextForQR, h]

/-- C9 witness: the accept branch applied at a concrete two-line input. -/
theorem text_encode_trims_only_witness :
    textGenerateQR " hi\r\nthere ".data = .ok "hi\r\nthere".data := by
  have h := text_encode_trims_only.2.2.2.1 " hi\r\nthere ".data (by decide) (by decide)
  rw [h]
  exact congrArg Except.ok (by decide)

/- ===================================================================
   C3 / C8 — location codec
   Source: src/src/scripts/components/location-qr-generator.js
   parseGoogleMapsUrl (lines 31-122), generateGeoUri (lines 168-173)
   =================================================================== -/

/-- Match a fixed literal at the start of a string, returning the rest. -/
def expectLit : Str → Str → Option Str
  | [], s => some s
  | _ :: _, [] => none
  | c :: l, x :: s => if x = c then expectLit l s else none

/-- Leftmost-match search: try the position matcher at every suffix, in
order, as a JavaScript unanchored regex does. -/
def searchFrom (f : Str → Option α) : Str → Option α
  | [] => f []
  | c :: t =>
    match f (c :: t) with
    | some r => some r
    | none => searchFrom f t

/-- The token matched by `-?\d+\.?\d*` after an optional minus sign:
maximal digit run, optional dot, maximal digit run.  (For these patterns
greedy matching with backtracking coincides with maximal munch, because
every shorter candidate ends on a digit or a dot and the contexts require
a comma or end the pattern.) -/
def numTokenCore (s : Str) : Option (Str × Str) :=
  let d1 := s.takeWhile isDigitChar
  if d1.isEmpty then none
  else
    match s.dropWhile isDigitChar with
    | '.' :: t2 =>
      some (d1 ++ '.' :: t2.takeWhile isDigitChar, t2.dropWhile isDigitChar)
    | r1 => some (d1, r1)

/-- The full `-?\d+\.?\d*` token. -/
def numToken : Str → Option (Str × Str)
  | '-' :: t => (numTokenCore t).map (fun p => ('-' :: p.1, p.2))
  | s => numTokenCore s

/-- Pattern `[?&]<lit>(-?\d+\.?\d*),(-?\d+\.?\d*)` at one position
(`lit` is `q=`, `ll=` or `center=`). -/
def matchParamAt (lit : Str) (s : Str) : Option (Str × Str) :=
  match s with
  | [] => none
  | c :: t =>
    if c = '?' ∨ c = '&' then
      match expectLit lit t with
      | none => none
      | some r1 =>
        match numToken r1 with
        | none => none
        | some (a, r2) =>
          match r2 with
          | ',' :: r3 =>
            match numToken r3 with
            | none => none
            | some (b, _) => some (a, b)
          | _ => none
    else none

/-- Pattern `@(-?\d+\.?\d*),(-?\d+\.?\d*),` at one position. -/
def matchAtSignAt (s : Str) : Option (Str × Str) :=
  match s with
  | '@' :: t =>
    match numToken t with
    | none => none
    | some (a, r2) =>
      match r2 with
      | ',' :: r3 =>
        match numToken r3 with
        | none => none
        | some (b, r4) =>
          match r4 with
          | ',' :: _ => some (a, b)
          | _ => none
      | _ => none
  | _ => none

/-- Pattern `\/(-?\d+\.?\d*),(-?\d+\.?\d*)` at one position. -/
def matchSlashAt (s : Str) : Option (Str × Str) :=
  match s with
  | '/' :: t =>
    match numToken t with
    | none => none
    | some (a, r2) =>
      match r2 with
      | ',' :: r3 =>
        match numToken r3 with
        | none => none
        | some (b, _) => some (a, b)
      | _ => none
  | _ => none

/-- The token matched by `-?\d{1,3}\.\d{4,}` at one position: at most 3
integer digits (the maximal run must itself fit, otherwise every
backtracking candidate fails because a digit follows), a dot, then at
least 4 fractional digits. -/
def fracCore (s : Str) : Option (Str × Str) :=
  let d := s.takeWhile isDigitChar
  if 1 ≤ d.length ∧ d.length ≤ 3 then
    match s.dropWhile isDigitChar with
    | '.' :: t2 =>
      let e := t2.takeWhile isDigitChar
      if 4 ≤ e.length then some (d ++ '.' :: e, t2.dropWhile isDigitChar) else none
    | _ => none
  else none

/-- The full `-?\d{1,3}\.\d{4,}` token. -/
def fracNum : Str → Option (Str × Str)
  | '-' :: t => (fracCore t).map (fun p => ('-' :: p.1, p.2))
  | s => fracCore s

/-- Pattern `(-?\d{1,3}\.\d{4,}),\s*(-?\d{1,3}\.\d{4,})` at one
position (the generic coordinate fallback). -/
def matchGenericAt (s : Str) : Option (Str × Str) :=
  match fracNum s with
  | none => none
  | some (a, r1) =>
    match r1 with
    | ',' :: r2 =>
      match fracNum (r2.dropWhile jsWhitespace) with
      | none => none
      | some (b, _) => some (a, b)
    | _ => none

/-- Unanchored searches for the six coordinate patterns. -/
def matchQ (s : Str) : Option (Str × Str) := searchFrom (matchParamAt "q=".data) s

/-- Pattern 2 search (`@lat,lng,zoom`). -/
def matchAtSign (s : Str) : Option (Str × Str) := searchFrom matchAtSignAt s

/-- Pattern 3 search (`/lat,lng` path segment). -/
def matchSlash (s : Str) : Option (Str × Str) := searchFrom matchSlashAt s

/-- Pattern 4 search (`?ll=lat,lng`). -/
def matchLL (s : Str) : Option (Str × Str) := searchFrom (matchParamAt "ll=".data) s

/-- Pattern 5 search (`?center=lat,lng`). -/
def matchCenter (s : Str) : Option (Str × Str) := searchFrom (matchParamAt "center=".data) s

/-- Pattern 7 search (generic high-precision pair). -/
def matchGeneric (s : Str) : Option (Str × Str) := searchFrom matchGenericAt s

/-- Value of a digit run (shared with the IBAN development). -/
def digitsToNat (s : Str) : Nat := decimalValue s

/-- JavaScript `parseFloat` on the canonical numeric captures produced by
the coordinate patterns (optional sign, digit run, optional dot and
fraction run); exact rational, binary floating point is not modelled. -/
def ratOfDecimalCore (s : Str) : ℚ :=
  let d1 := s.takeWhile isDigitChar
  let frac : Str :=
    match s.dropWhile isDigitChar with
    | '.' :: t => t.takeWhile isDigitChar
    | _ => []
  mkRat (digitsToNat d1 * 10 ^ frac.length + digitsToNat frac) (10 ^ frac.length)

/-- Signed version of `ratOfDecimalCore`. -/
def ratOfDecimal : Str → ℚ
  | '-' :: t => - ratOfDecimalCore t
  | s => ratOfDecimalCore s

/-- The two failure kinds of the URL parser (short-link rejection and the
generic could-not-extract error; the source carries message strings). -/
inductive GeoErr where
  | shortUrl : GeoErr
  | noCoords : GeoErr
deriving DecidableEq

/-- Result record of `parseGoogleMapsUrl`. -/
inductive GeoParse where
  | success (latitude longitude : ℚ) : GeoParse
  | failure (e : GeoErr) : GeoParse
deriving DecidableEq

/-- The shortened-link marker test (`goo.gl/maps` or `maps.app.goo.gl`). -/
def isShortUrl (s : Str) : Bool :=
  containsSub "goo.gl/maps".data s || containsSub "maps.app.goo.gl".data s

/-- Source `parseGoogleMapsUrl` (location-qr-generator.js lines 31-122):
the six extraction patterns in source order, the short-URL rejection
between pattern 5 and the generic fallback, and the coordinate range
check applied only to the fallback. -/
def parseGoogleMapsUrl (url : Str) : GeoParse :=
  let s := jsTrim url
  match matchQ s with
  | some (a, b) => .success (ratOfDecimal a) (ratOfDecimal b)
  | none =>
  match matchAtSign s with
  | some (a, b) => .success (ratOfDecimal a) (ratOfDecimal b)
  | none =>
  match matchSlash s with
  | some (a, b) => .success (ratOfDecimal a) (ratOfDecimal b)
  | none =>
  match matchLL s with
  | some (a, b) => .success (ratOfDecimal a) (ratOfDecimal b)
  | none =>
  match matchCenter s with
  | some (a, b) => .success (ratOfDecimal a) (ratOfDecimal b)
  | none =>
  if isShortUrl s then .failure .shortUrl
  else
  match matchGeneric s with
  | some (a, b) =>
    let lat := ratOfDecimal a
    let lng := ratOfDecimal b
    if -90 ≤ lat ∧ lat ≤ 90 ∧ -180 ≤ lng ∧ lng ≤ 180 then .success lat lng
    else .failure .noCoords
  | none => .failure .noCoords

/-- C3 counterexample: a URL carrying the `maps.app.goo.gl` marker whose
query also matches the `?q=` pattern is parsed successfully instead of
being rejected with the short-URL error. -/
theorem location_short_url_counterexample :
    isShortUrl (jsTrim "https://maps.app.goo.gl/?q=1.5,2.5".data) = true ∧
    parseGoogleMapsUrl "https://maps.app.goo.gl/?q=1.5,2.5".data =
      .success (mkRat 3 2) (mkRat 5 2) :=
  ⟨by decide, by decide⟩

/-- C3 (amended): the parser tries `?q=`, `@`, `/path`, `?ll=`,
`?center=` in that order and returns the first match; only when none of
those five matches does it reject marker-bearing short URLs with the
distinct short-URL error; otherwise the generic high-precision fallback
applies, returning its coordinates only when they lie within the
latitude/longitude ranges, and failing with the generic error otherwise.
No branch performs network resolution (the parser is a pure function of
the URL string). -/
theorem location_parse_order (url : Str) :
    (∀ a b, matchQ (jsTrim url) = some (a, b) →
      parseGoogleMapsUrl url = .success (ratOfDecimal a) (ratOfDecimal b)) ∧
    (matchQ (jsTrim url) = none →
      ∀ a b, matchAtSign (jsTrim url) = some (a, b) →
      parseGoogleMapsUrl url = .success (ratOfDecimal a) (ratOfDecimal b)) ∧
    (matchQ (jsTrim url) = none → matchAtSign (jsTrim url) = none →
      ∀ a b, matchSlash (jsTrim url) = some (a, b) →
      parseGoogleMapsUrl url = .success (ratOfDecimal a) (ratOfDecimal b)) ∧
    (matchQ (jsTrim url) = none → matchAtSign (jsTrim url) = none →
      matchSlash (jsTrim url) = none →
      ∀ a b, matchLL (jsTrim url) = some (a, b) →
      parseGoogleMapsUrl url = .success (ratOfDecimal a) (ratOfDecimal b)) ∧
    (matchQ (jsTrim url) = none → matchAtSign (jsTrim url) = none →
      matchSlash (jsTrim url) = none → matchLL (jsTrim url) = none →
      ∀ a b, matchCenter (jsTrim url) = some (a, b) →
      parseGoogleMapsUrl url = .success (ratOfDecimal a) (ratOfDecimal b)) ∧
    (matchQ (jsTrim url) = none → matchAtSign (jsTrim url) = none →
      matchSlash (jsTrim url) = none → matchLL (jsTrim url) = none →
      matchCenter (jsTrim url) = none → isShortUrl (jsTrim url) = true →
      parseGoogleMapsUrl url = .failure .shortUrl) ∧
    (matchQ (jsTrim url) = none → matchAtSign (jsTrim url) = none →
      matchSlash (jsTrim url) = none → matchLL (jsTrim url) = none →
      matchCenter (jsTrim url) = none → isShortUrl (jsTrim url) = false →
      ∀ a b, matchGeneric (jsTrim url) = some (a, b) →
      ((-90 ≤ ratOfDecimal a ∧ ratOfDecimal a ≤ 90 ∧
        -180 ≤ ratOfDecimal b ∧ ratOfDecimal b ≤ 180) →
        parseGoogleMapsUrl url = .success (ratOfDecimal a) (ratOfDecimal b)) ∧
      (¬ (-90 ≤ ratOfDecimal a ∧ ratOfDecimal a ≤ 90 ∧
        -180 ≤ ratOfDecimal b ∧ ratOfDecimal b ≤ 180) →
        parseGoogleMapsUrl url = .failure .noCoords)) ∧
    (matchQ (jsTrim url) = none → matchAtSign (jsTrim url) = none →
      matchSlash (jsTrim url) = none → matchLL (jsTrim url) = none →
      matchCenter (jsTrim url) = none → isShortUrl (jsTrim url) = false →
      matchGeneric (jsTrim url) = none →
      parseGoogleMapsUrl url = .failure .noCoords) := by
  refine ⟨?_, ?_, ?_, ?_, ?_, ?_, ?_, ?_⟩
  · intro a b h
    simp [parseGoogleMapsUrl, h]
  · intro h1 a b h
    simp [parseGoogleMapsUrl, h1, h]
  · intro h1 h2 a b h
    simp [parseGoogleMapsUrl, h1, h2, h]
  · intro h1 h2 h3 a b h
    simp [parseGoogleMapsUrl, h1, h2, h3, h]
  · intro h1 h2 h3 h4 a b h
    simp [parseGoogleMapsUrl, h1, h2, h3, h4, h]
  · intro h1 h2 h3 h4 h5 h6
    simp [parseGoogleMapsUrl, h1, h2, h3, h4, h5, h6]
  · intro h1 h2 h3 h4 h5 h6 a b h
    constructor
    · intro hr
      simp [parseGoogleMapsUrl, h1, h2, h3, h4, h5, h6, h, hr]
    · intro hr
      simp [parseGoogleMapsUrl, h1, h2, h3, h4, h5, h6, h, hr]
  · intro h1 h2 h3 h4 h5 h6 h7
    simp [parseGoogleMapsUrl, h1, h2, h3, h4, h5, h6, h7]

/-- C3 witness: the short-URL clause applied to a marker-only URL at
which the five coordinate patterns all fail. -/
theorem location_parse_order_witness :
    parseGoogleMapsUrl "https://goo.gl/maps/AbC12".data = .failure .shortUrl :=
  (location_parse_order "https://goo.gl/maps/AbC12".data).2.2.2.2.2.1
    (by decide) (by decide) (by decide) (by decide) (by decide) (by decide)

/-- Decimal digits of a natural number via explicit fuel (so the kernel
can evaluate it); fuel `n + 1` always suffices. -/
def natDigitsAux : Nat → Nat → Str
  | 0, _ => []
  | f + 1, n =>
    if n < 10 then [Nat.digitChar n]
    else natDigitsAux f (n / 10) ++ [Nat.digitChar (n % 10)]

/-- JavaScript `String(n)` for a non-negative integer. -/
def natDigits (n : Nat) : Str := natDigitsAux (n + 1) n

/-- JavaScript `String.prototype.padStart(k, '0')`. -/
def padLeftZeros (k : Nat) (s : Str) : Str := List.replicate (k - s.length) '0' ++ s

/-- Source `generateGeoUri` number formatting: `toFixed(6)` on an exact
rational, i.e. round-half-up of `|q| * 10^6` (computed on numerator and
denominator), with the sign emitted first as ECMA `toFixed` does. -/
def toFixed6 (q : ℚ) : Str :=
  let n : Nat := (q.num.natAbs * 1000000 * 2 + q.den) / (2 * q.den)
  (if q.num < 0 then ['-'] else []) ++
    natDigits (n / 1000000) ++ '.' :: padLeftZeros 6 (natDigits (n % 1000000))

/-- Source `generateGeoUri` (location-qr-generator.js lines 168-173). -/
def generateGeoUri (latitude longitude : ℚ) : Str :=
  "geo:".data ++ toFixed6 latitude ++ ',' :: toFixed6 longitude

theorem digitChar_isDigit (m : Nat) (h : m < 10) : isDigitChar (Nat.digitChar m) = true := by
  interval_cases m <;> decide

theorem natDigitsAux_all (f : Nat) : ∀ n, (natDigitsAux f n).all isDigitChar = true := by
  induction f with
  | zero => intro n; rfl
  | succ f ih =>
    intro n
    by_cases h : n < 10
    · simp [natDigitsAux, h, digitChar_isDigit n h]
    · simp [natDigitsAux, h, ih (n / 10), digitChar_isDigit (n % 10) (Nat.mod_lt _ (by norm_num))]

theorem natDigitsAux_length (f : Nat) : ∀ n k, n < 10 ^ k → 1 ≤ k →
    (natDigitsAux f n).length ≤ k := by
  induction f with
  | zero => intro n k _ _; simp [natDigitsAux]
  | succ f ih =>
    intro n k hk h1
    by_cases h : n < 10
    · simp [natDigitsAux, h]
      exact h1
    · have hk2 : 2 ≤ k := by
        by_contra hc
        have : k = 1 := by omega
        rw [this] at hk
        simp at hk
        omega
      have hdiv : n / 10 < 10 ^ (k - 1) := by
        rw [Nat.div_lt_iff_lt_mul (by norm_num)]
        calc n < 10 ^ k := hk
        _ = 10 ^ (k - 1) * 10 := by
            rw [← Nat.pow_succ]
            congr 1
            omega
      have := ih (n / 10) (k - 1) hdiv (by omega)
      simp only [natDigitsAux, h, if_false, List.length_append, List.length_cons,
        List.length_nil]
      omega

theorem natDigits_length (n k : Nat) (hk : n < 10 ^ k) (h1 : 1 ≤ k) :
    (natDigits n).length ≤ k :=
  natDigitsAux_length (n + 1) n k hk h1

theorem natDigits_all (n : Nat) : (natDigits n).all isDigitChar = true :=
  natDigitsAux_all (n + 1) n

theorem toFixed6_six_decimals (q : ℚ) :
    ∃ pre post, toFixed6 q = pre ++ '.' :: post ∧ post.length = 6 ∧
      post.all isDigitChar = true := by
  refine ⟨(if q.num < 0 then ['-'] else []) ++
      natDigits (((q.num.natAbs * 1000000 * 2 + q.den) / (2 * q.den)) / 1000000),
    padLeftZeros 6 (natDigits (((q.num.natAbs * 1000000 * 2 + q.den) / (2 * q.den)) % 1000000)),
    ?_, ?_, ?_⟩
  · simp [toFixed6, List.append_assoc]
  · have hlt : ((q.num.natAbs * 1000000 * 2 + q.den) / (2 * q.den)) % 1000000 < 10 ^ 6 :=
      Nat.mod_lt _ (by norm_num)
    have := natDigits_length _ 6 hlt (by norm_num)
    simp only [padLeftZeros, List.length_append, List.length_replicate]
    omega
  · simp only [padLeftZeros, List.all_append, Bool.and_eq_true]
    constructor
    · refine List.all_eq_true.mpr ?_
      intro c hc
      rw [List.eq_of_mem_replicate hc]
      rfl
    · exact natDigits_all _

/-- C8: parsing the example maps URL yields 40.7128 / -74.006, encoding
that coordinate yields `geo:40.712800,-74.006000`, and for every
coordinate the encoder emits `geo:<lat>,<lon>` with each component
formatted to exactly 6 decimal places. -/
theorem geo_roundtrip :
    parseGoogleMapsUrl "https://www.google.com/maps/@40.7128,-74.0060,15z".data =
      .success (mkRat 407128 10000) (- mkRat 740060 10000) ∧
    generateGeoUri (mkRat 407128 10000) (- mkRat 740060 10000) =
      "geo:40.712800,-74.006000".data ∧
    (∀ lat lng : ℚ, generateGeoUri lat lng =
      "geo:".data ++ toFixed6 lat ++ ',' :: toFixed6 lng) ∧
    (∀ q : ℚ, ∃ pre post, toFixed6 q = pre ++ '.' :: post ∧ post.length = 6 ∧
      post.all isDigitChar = true) :=
  ⟨by decide, by decide, fun _ _ => rfl, toFixed6_six_decimals⟩

/- ===================================================================
   C5 — event codec clock dependence
   Source: src/unnamed/part_011 (EventQRGenerator),
   generateICalString (lines 27-105)
   =================================================================== -/

/-- Source `escapeICalText`: backslash, semicolon, comma, newline escaped
in that order, carriage returns removed. -/
def escapeICalText (s : Str) : Str :=
  replaceChar '\r' []
    (replaceChar '\n' ['\\', 'n']
      (replaceChar ',' ['\\', ',']
        (replaceChar ';' ['\\', ';']
          (replaceChar '\\' ['\\', '\\'] s))))

/-- JavaScript `parseInt` on the digit-prefixed strings produced by the
date and time inputs (well-formed `YYYY-MM-DD` / `HH:MM` components). -/
def parseIntNat (s : Str) : Nat := digitsToNat (s.takeWhile isDigitChar)

/-- Two-digit zero padding (`String(n).padStart(2, '0')`). -/
def pad2 (n : Nat) : Str := padLeftZeros 2 (natDigits n)

/-- Four-digit zero padding (the year field of `toISOString`). -/
def pad4 (n : Nat) : Str := padLeftZeros 4 (natDigits n)

/-- Source `formatICalDateTime`: for all-day events `YYYYMMDD` from the
date components, otherwise `YYYYMMDDTHHMM00Z` from date plus optional
`HH:MM` time.  The host timezone is pinned to UTC in this embedding, so
the local `getFullYear`/`setHours` calls coincide with the UTC fields of
the parsed date. -/
def formatICalDateTime (date time : Str) (isAllDay : Bool) : Str :=
  if date.isEmpty then []
  else
    let parts := splitOnChar '-' date
    let y := parseIntNat (parts.getD 0 [])
    let m := parseIntNat (parts.getD 1 [])
    let d := parseIntNat (parts.getD 2 [])
    if isAllDay then natDigits y ++ pad2 m ++ pad2 d
    else
      let tparts := splitOnChar ':' time
      let h := if time.isEmpty then 0 else parseIntNat (tparts.getD 0 [])
      let mi := if time.isEmpty then 0 else parseIntNat (tparts.getD 1 [])
      pad4 y ++ pad2 m ++ pad2 d ++ 'T' :: (pad2 h ++ pad2 mi ++ "00Z".data)

/-- The organizer email character class `[^<>\s]`. -/
def isEmailChar (c : Char) : Bool := !(c = '<' || c = '>' || jsWhitespace c)

/-- The regex `([^<>\s]+@[^<>\s]+)` at one position: the maximal class
run matches when it contains an `@` that is neither its first nor its
last character, and the whole run is then the match. -/
def emailMatchAt (s : Str) : Option (Str × Str) :=
  let run := s.takeWhile isEmailChar
  if ((run.drop 1).dropLast).contains '@' then some (run, s.drop run.length)
  else none

/-- Unanchored search for the organizer email pattern. -/
def emailMatch (s : Str) : Option (Str × Str) := searchFrom emailMatchAt s

/-- JavaScript `String.prototype.replace` with a (non-empty) string
pattern: first occurrence only. -/
def replaceFirst (needle repl : Str) : Str → Str
  | [] => []
  | c :: t =>
    if needle.isPrefixOf (c :: t) then repl ++ (c :: t).drop needle.length
    else c :: replaceFirst needle repl t

/-- The `[<>()]` removal applied to the organizer text. -/
def stripAngleParens (s : Str) : Str :=
  s.filter (fun c => !(c = '<' || c = '>' || c = '(' || c = ')'))

/-- The ORGANIZER lines of `generateICalString` (organizer non-empty). -/
def organizerLines (organizer : Str) : Str :=
  match emailMatch organizer with
  | some (email, _) =>
    let name := jsTrim (replaceFirst email [] (stripAngleParens organizer))
    if ¬ name.isEmpty then
      "ORGANIZER;CN=\"".data ++ escapeICalText name ++ "\":MAILTO:".data ++ email ++ ['\n']
    else
      "ORGANIZER:MAILTO:".data ++ email ++ ['\n']
  | none =>
    "ORGANIZER;CN=\"".data ++ escapeICalText organizer ++
      "\":MAILTO:noreply@qubex.it\n".data

/-- Event form data (strings as entered; `allDay` from the checkbox). -/
structure EventData where
  eventTitle : Str
  eventDescription : Str
  eventLocation : Str
  eventOrganizer : Str
  eventUrl : Str
  startDate : Str
  endDate : Str
  startTime : Str
  endTime : Str
  allDay : Bool
deriving DecidableEq

/-- The clock-independent middle section of the iCal output (SUMMARY
through URL), exactly in source order. -/
def icalEventBody (e : EventData) : Str :=
  (if ¬ e.eventTitle.isEmpty then
    "SUMMARY:".data ++ escapeICalText e.eventTitle ++ ['\n'] else []) ++
  (if e.allDay then
    "DTSTART;VALUE=DATE:".data ++ formatICalDateTime e.startDate e.startTime e.allDay ++
      "\nDTEND;VALUE=DATE:".data ++ formatICalDateTime e.endDate e.endTime e.allDay ++ ['\n']
  else
    "DTSTART:".data ++ formatICalDateTime e.startDate e.startTime e.allDay ++
      "\nDTEND:".data ++ formatICalDateTime e.endDate e.endTime e.allDay ++ ['\n']) ++
  (if ¬ e.eventDescription.isEmpty then
    "DESCRIPTION:".data ++ escapeICalText e.eventDescription ++ ['\n'] else []) ++
  (if ¬ e.eventLocation.isEmpty then
    "LOCATION:".data ++ escapeICalText e.eventLocation ++ ['\n'] else []) ++
  (if ¬ e.eventOrganizer.isEmpty then organizerLines e.eventOrganizer else []) ++
  (if ¬ e.eventUrl.isEmpty then "URL:".data ++ e.eventUrl ++ ['\n'] else [])

/-- Source `generateICalString` (part_011 lines 27-105).  The two clock
reads of the source — `new Date().toISOString()`-derived `timestamp` and
`Date.now()` in the UID — are explicit parameters, so the function is
the source body as a function of (clock readings, event data). -/
def generateICalString (timestamp : Str) (nowMs : Nat) (e : EventData) : Str :=
  "BEGIN:VCALENDAR\nVERSION:2.0\nPRODID:-//Qubex Tools//Event QR Generator//EN\nCALSCALE:GREGORIAN\nMETHOD:PUBLISH\nBEGIN:VEVENT\nUID:event-".data ++
    natDigits nowMs ++ "@qubex.it\nDTSTAMP:".data ++ timestamp ++ ['\n'] ++
  icalEventBody e ++
  "STATUS:CONFIRMED\nTRANSP:OPAQUE\nSEQUENCE:0\nCREATED:".data ++ timestamp ++
  "\nLAST-MODIFIED:".data ++ timestamp ++ "\nEND:VEVENT\nEND:VCALENDAR".data

/-- A concrete all-day event used for the counterexample. -/
def sampleEvent : EventData :=
  { eventTitle := "Meeting".data, eventDescription := [], eventLocation := [],
    eventOrganizer := [], eventUrl := [],
    startDate := "2024-01-02".data, endDate := "2024-01-02".data,
    startTime := [], endTime := [], allDay := true }

/-- C5 counterexample: the same event data encoded at two different clock
readings produces two different iCal strings, so the event encode
operation is not a function of its input alone. -/
theorem ical_clock_dependence_counterexample :
    generateICalString "20240101T000000Z".data 1704067200000 sampleEvent ≠
    generateICalString "20240101T000001Z".data 1704067200000 sampleEvent := by
  decide

/-- C5 (amended): the event encoder depends on the clock exactly through
the UID millisecond value and the three timestamp fields — for every
event the output is a fixed template around those slots, hence
deterministic once the clock readings are fixed. -/
theorem ical_clock_template (e : EventData) :
    ∃ A B C D E : Str, ∀ (timestamp : Str) (nowMs : Nat),
      generateICalString timestamp nowMs e =
        A ++ natDigits nowMs ++ B ++ timestamp ++ C ++ timestamp ++
          D ++ timestamp ++ E := by
  refine ⟨"BEGIN:VCALENDAR\nVERSION:2.0\nPRODID:-//Qubex Tools//Event QR Generator//EN\nCALSCALE:GREGORIAN\nMETHOD:PUBLISH\nBEGIN:VEVENT\nUID:event-".data,
    "@qubex.it\nDTSTAMP:".data,
    '\n' :: (icalEventBody e ++ "STATUS:CONFIRMED\nTRANSP:OPAQUE\nSEQUENCE:0\nCREATED:".data),
    "\nLAST-MODIFIED:".data,
    "\nEND:VEVENT\nEND:VCALENDAR".data, ?_⟩
  intro t n
  simp [generateICalString, List.append_assoc]

/- ===================================================================
   C6 — failure channel of the generate operations
   Source: src/unnamed/part_010 (EmailQRGenerator.generateEmailQR,
   lines 27-44) and src/src/scripts/components/payment-qr-generator.js
   (PaymentQRGenerator.generateQR, lines 18-37)
   =================================================================== -/

/-- The unreserved set of `encodeURIComponent`
(`A-Z a-z 0-9 - _ . ! ~ * ' ( )`). -/
def isUnreservedURI (c : Char) : Bool :=
  c.isAlpha || isDigitChar c || c = '-' || c = '_' || c = '.' || c = '!' ||
  c = '~' || c = '*' || c = Char.ofNat 39 || c = '(' || c = ')'

/-- Uppercase hex digit of a value below 16. -/
def hexDigitUpper (n : Nat) : Char :=
  if n < 10 then Nat.digitChar n else Char.ofNat (55 + n)

/-- UTF-8 bytes of a Unicode scalar value. -/
def utf8Bytes (n : Nat) : List Nat :=
  if n < 128 then [n]
  else if n < 2048 then [192 + n / 64, 128 + n % 64]
  else if n < 65536 then [224 + n / 4096, 128 + (n / 64) % 64, 128 + n % 64]
  else [240 + n / 262144, 128 + (n / 4096) % 64, 128 + (n / 64) % 64, 128 + n % 64]

/-- One percent-encoded byte (`%HH`, uppercase). -/
def percentByte (b : Nat) : Str := ['%', hexDigitUpper (b / 16), hexDigitUpper (b % 16)]

/-- JavaScript `encodeURIComponent`. -/
def encodeURIComponent (s : Str) : Str :=
  s.flatMap (fun c =>
    if isUnreservedURI c then [c] else (utf8Bytes c.toNat).flatMap percentByte)

/-- Email form data. -/
structure EmailData where
  recipient : Str
  subject : Str
  body : Str
deriving DecidableEq

/-- The anchored recipient regex `^[^\s@]+@[^\s@]+\.[^\s@]+$`: exactly
one `@` with a non-empty whitespace-free local part and a whitespace-free
domain containing an internal dot. -/
def emailFormatOk (s : Str) : Bool :=
  match splitOnChar '@' s with
  | [p1, p2] =>
    !p1.isEmpty && p1.all (fun c => !jsWhitespace c) &&
      p2.all (fun c => !jsWhitespace c) && ((p2.drop 1).dropLast).contains '.'
  | _ => false

/-- Validation failures of `validateEmailData` (thrown in the source). -/
inductive EmailErr where
  | recipientRequired : EmailErr
  | badFormat : EmailErr
  | subjectTooLong : EmailErr
  | bodyTooLong : EmailErr
deriving DecidableEq

/-- Source `validateEmailData` (part_010 lines 81-105): `none` when no
check throws. -/
def validateEmailData (e : EmailData) : Option EmailErr :=
  if e.recipient.isEmpty || (jsTrim e.recipient).isEmpty then some .recipientRequired
  else if ¬ emailFormatOk (jsTrim e.recipient) then some .badFormat
  else if ¬ e.subject.isEmpty ∧ 100 < e.subject.length then some .subjectTooLong
  else if ¬ e.body.isEmpty ∧ 500 < e.body.length then some .bodyTooLong
  else none

/-- Source `createMailtoUrl` (part_010 lines 50-75). -/
def createMailtoUrl (e : EmailData) : Str :=
  let params :=
    (if ¬ (jsTrim e.subject).isEmpty then
      ["subject=".data ++ encodeURIComponent (jsTrim e.subject)] else []) ++
    (if ¬ (jsTrim e.body).isEmpty then
      ["body=".data ++ encodeURIComponent (jsTrim e.body)] else [])
  "mailto:".data ++ encodeURIComponent e.recipient ++
    (if params.isEmpty then [] else '?' :: List.intercalate ['&'] params)

/-- The faults a generate call can raise across the codec boundary (the
source wraps every inner failure into one generic `Error` per codec). -/
inductive ThrownErr where
  | emailGenFailed : ThrownErr
  | paymentGenFailed : ThrownErr
deriving DecidableEq

/-- A JavaScript call observed from the caller: either a returned value
or a raised exception. -/
inductive JSOutcome (α : Type) where
  | returns (val : α) : JSOutcome α
  | throws (e : ThrownErr) : JSOutcome α
deriving DecidableEq

/-- Source `generateEmailQR` (part_010 lines 27-44), up to the QR canvas
rendering: invalid data makes `validateEmailData` throw, the catch block
re-throws a wrapped generic Error; the success value is the mailto string
passed to the QR library. -/
def generateEmailQR (e : EmailData) : JSOutcome Str :=
  match validateEmailData e with
  | some _ => .throws .emailGenFailed
  | none => .returns (createMailtoUrl e)

/-- Source `PaymentQRGenerator.generateQR` (payment-qr-generator.js lines
18-37), up to the QR rendering: an empty/absent payment string throws a
wrapped Error; the success value models the `paymentString` field of the
returned record. -/
def paymentGenerateQR (s : Str) : JSOutcome Str :=
  if s.isEmpty then .throws .paymentGenFailed else .returns s

/-- C6 counterexample: invalid input to the two cited generate operations
produces a raised (wrapped) Error, not a returned failure value. -/
theorem codec_throws_counterexample :
    generateEmailQR { recipient := [], subject := [], body := [] } =
      .throws .emailGenFailed ∧
    paymentGenerateQR [] = .throws .paymentGenFailed :=
  ⟨rfl, rfl⟩

/-- C6 (amended): the validate operations are total functions into typed
success-or-error results, but the email and payment generate operations
signal invalid input by raising a wrapped Error (which their callers
catch), returning a value only on valid input. -/
theorem codec_error_channels :
    (∀ e : EmailData, validateEmailData e ≠ none →
      generateEmailQR e = .throws .emailGenFailed) ∧
    (∀ e : EmailData, validateEmailData e = none →
      generateEmailQR e = .returns (createMailtoUrl e)) ∧
    (∀ s : Str, s.isEmpty = true → paymentGenerateQR s = .throws .paymentGenFailed) ∧
    (∀ s : Str, s.isEmpty = false → paymentGenerateQR s = .returns s) ∧
    (∀ v : Str, (∃ nv, validateMessage v = .ok nv) ∨
      (∃ er, validateMessage v = .err er)) := by
  refine ⟨?_, ?_, ?_, ?_, ?_⟩
  · intro e h
    unfold generateEmailQR
    cases hv : validateEmailData e with
    | none => exact absurd hv h
    | some er => rfl
  · intro e h
    unfold generateEmailQR
    rw [h]
  · intro s h
    simp [paymentGenerateQR, h]
  · intro s h
    simp [paymentGenerateQR, h]
  · intro v
    cases hv : validateMessage v with
    | ok nv => exact Or.inl ⟨nv, rfl⟩
    | err er => exact Or.inr ⟨er, rfl⟩

/-- C6 witness: the throw branch applied at a concrete malformed email
and the empty payment string. -/
theorem codec_error_channels_witness :
    generateEmailQR { recipient := "not-an-email".data, subject := [], body := [] } =
      .throws .emailGenFailed ∧
    paymentGenerateQR [] = .throws .paymentGenFailed :=
  ⟨codec_error_channels.1 _ (by decide), codec_error_channels.2.2.1 [] (by decide)⟩

/- ===================================================================
   C4 — payment encode/decode round trip
   Source: src/src/scripts/main.js generatePaymentString (lines 396-457),
   src/src/scripts/components/payment-qr-generator.js extractPaymentInfo
   (lines 200-308), validity from payment-form-validator.js
   =================================================================== -/

/-- Value of a hex digit character. -/
def hexVal (c : Char) : Nat :=
  if c.toNat ≤ 57 then c.toNat - 48
  else if c.toNat ≤ 70 then c.toNat - 55
  else c.toNat - 87

/-- ASCII hex digit class `[0-9A-Fa-f]`. -/
def isHexChar (c : Char) : Bool :=
  isDigitChar c || (65 ≤ c.toNat && c.toNat ≤ 70) || (97 ≤ c.toNat && c.toNat ≤ 102)

/-- Percent-decoded byte to character.  Multi-byte UTF-8 sequences are
not reassembled (bytes at or above 128 decode to U+FFFD); every theorem
below feeds only ASCII bytes through this. -/
def byteToChar (n : Nat) : Char :=
  if n < 128 then Char.ofNat n else Char.ofNat 0xfffd

/-- `URLSearchParams` component decoding with explicit fuel (each step
consumes at least one character, so fuel equal to the length suffices):
`+` to space and `%HH` to the byte; a `%` not followed by two hex digits
stays literal. -/
def decodePlusAux : Nat → Str → Str
  | 0, _ => []
  | _ + 1, [] => []
  | f + 1, c :: r =>
    if c = '+' then ' ' :: decodePlusAux f r
    else if c = '%' then
      match r with
      | a :: b :: r2 =>
        if isHexChar a && isHexChar b then
          byteToChar (hexVal a * 16 + hexVal b) :: decodePlusAux f r2
        else '%' :: decodePlusAux f r
      | _ => '%' :: decodePlusAux f r
    else c :: decodePlusAux f r

/-- `URLSearchParams` component decoding. -/
def decodePlus (s : Str) : Str := decodePlusAux s.length s

/-- `URLSearchParams` pair parsing: key before the first `=`, value the
rest, both decoded. -/
def splitFirstEq (seg : Str) : Str × Str :=
  match seg.dropWhile (fun c => c ≠ '=') with
  | '=' :: v => (decodePlus (seg.takeWhile (fun c => c ≠ '=')), decodePlus v)
  | _ => (decodePlus (seg.takeWhile (fun c => c ≠ '=')), [])

/-- `new URLSearchParams(q)`: split on `&`, drop empty segments, split
each segment at its first `=`. -/
def parseParams (q : Str) : List (Str × Str) :=
  (splitOnChar '&' q).filterMap (fun seg => if seg.isEmpty then none else some (splitFirstEq seg))

/-- `URLSearchParams.get` (first match or null). -/
def getParam (k : Str) (q : Str) : Option Str :=
  ((parseParams q).find? (fun pr => pr.1 == k)).map (fun pr => pr.2)

/-- JavaScript numbers as produced by `parseFloat`: NaN, signed infinity,
or an exact rational (binary floating point is not modelled). -/
inductive JNum where
  | nan : JNum
  | inf (neg : Bool) : JNum
  | num (q : ℚ) : JNum
deriving DecidableEq

/-- Signed integer from a natural and a sign flag. -/
def ratSign (neg : Bool) (n : Nat) : Int := if neg then -(n : Int) else (n : Int)

/-- Exponent part `[eE][+-]?digits` of a float literal; `none` when not
present or when no digits follow (in which case `parseFloat` ignores
the trailing `e`). -/
def parseExp : Str → Option (Bool × Nat)
  | [] => none
  | c :: rest =>
    if c = 'e' ∨ c = 'E' then
      match rest with
      | '+' :: r2 =>
        if (r2.takeWhile isDigitChar).isEmpty then none
        else some (false, digitsToNat (r2.takeWhile isDigitChar))
      | '-' :: r2 =>
        if (r2.takeWhile isDigitChar).isEmpty then none
        else some (true, digitsToNat (r2.takeWhile isDigitChar))
      | r2 =>
        if (r2.takeWhile isDigitChar).isEmpty then none
        else some (false, digitsToNat (r2.takeWhile isDigitChar))
    else none

/-- Body of `parseFloat` after sign handling: `Infinity`, or
`digits [. digits] [exponent]` as the longest valid prefix. -/
def parseFloatBody (neg : Bool) (t : Str) : JNum :=
  if "Infinity".data.isPrefixOf t then .inf neg
  else
    let d1 := t.takeWhile isDigitChar
    let r1 := t.dropWhile isDigitChar
    let frac := match r1 with | '.' :: t2 => t2.takeWhile isDigitChar | _ => []
    let r2 := match r1 with | '.' :: t2 => t2.dropWhile isDigitChar | _ => r1
    if d1.isEmpty && frac.isEmpty then .nan
    else
      let mant : Nat := digitsToNat d1 * 10 ^ frac.length + digitsToNat frac
      let fden : Nat := 10 ^ frac.length
      match parseExp r2 with
      | some (true, e) => .num (mkRat (ratSign neg mant) (fden * 10 ^ e))
      | some (false, e) => .num (mkRat (ratSign neg (mant * 10 ^ e)) fden)
      | none => .num (mkRat (ratSign neg mant) fden)

/-- JavaScript `parseFloat`. -/
def jsParseFloat (s : Str) : JNum :=
  match s.dropWhile jsWhitespace with
  | '+' :: t => parseFloatBody false t
  | '-' :: t => parseFloatBody true t
  | t => parseFloatBody false t

/-- `0 < x` on JavaScript numbers (false for NaN). -/
def jnumGtZero : JNum → Bool
  | .nan => false
  | .inf neg => !neg
  | .num q => decide (0 < q.num)

/-- `b < x` for a natural bound (false for NaN). -/
def jnumGtNat (x : JNum) (b : Nat) : Bool :=
  match x with
  | .nan => false
  | .inf neg => !neg
  | .num q => decide ((b : Int) * (q.den : Int) < q.num)

/-- The `[a-zA-Z0-9._-]` class (PayPal usernames and UPI id parts). -/
def isPaypalChar (c : Char) : Bool :=
  c.isAlpha || isDigitChar c || c = '.' || c = '_' || c = '-'

/-- The Bitcoin base58 tail class `[a-km-zA-HJ-NP-Z1-9]`. -/
def isBase58 (c : Char) : Bool :=
  (97 ≤ c.toNat && c.toNat ≤ 122 && c ≠ 'l') ||
  (65 ≤ c.toNat && c.toNat ≤ 90 && c ≠ 'I' && c ≠ 'O') ||
  (49 ≤ c.toNat && c.toNat ≤ 57)

/-- The `[A-Z0-9]` class. -/
def isUpperDigit (c : Char) : Bool := isUpperAZ c || isDigitChar c

/-- Truthiness-plus-trim check of the validator's required-field loop. -/
def requiredOk (f : Str) : Bool := !f.isEmpty && !(jsTrim f).isEmpty

/-- Optional amount check shared by all payment kinds: skipped when empty
or whitespace, otherwise `parseFloat` must be a number strictly between 0
and the kind-specific bound. -/
def amountOk (a : Str) (upper : Nat) : Bool :=
  if a.isEmpty || (jsTrim a).isEmpty then true
  else jnumGtZero (jsParseFloat a) && !jnumGtNat (jsParseFloat a) upper

/-- The payee/account-holder name rule `^[a-zA-Z\s.'-]+$` with length
bounds 2..100. -/
def nameOk (n : Str) : Bool :=
  decide (2 ≤ n.length) && decide (n.length ≤ 100) &&
    n.all (fun c => c.isAlpha || jsWhitespace c || c = '.' || c = Char.ofNat 39 || c = '-')

/-- The IBAN format regex
`^[A-Z]{2}[0-9]{2}[A-Z0-9]{4}[0-9]{7}([A-Z0-9]?){0,16}$`. -/
def ibanFormatOk (s : Str) : Bool :=
  decide (15 ≤ s.length) && decide (s.length ≤ 31) &&
  (s.take 2).all isUpperAZ && ((s.drop 2).take 2).all isDigitChar &&
  ((s.drop 4).take 4).all isUpperDigit && ((s.drop 8).take 7).all isDigitChar &&
  (s.drop 15).all isUpperDigit

/-- The validator's IBAN cleaning: strip whitespace, uppercase. -/
def cleanIban (s : Str) : Str := (s.filter (fun c => !jsWhitespace c)).map Char.toUpper

/-- The Bitcoin address regex `^[13][a-km-zA-HJ-NP-Z1-9]{25,34}$`. -/
def btcAddrOk (a : Str) : Bool :=
  match a with
  | [] => false
  | h :: t =>
    (h = '1' || h = '3') && t.all isBase58 &&
      decide (25 ≤ t.length) && decide (t.length ≤ 34)

/-- The Ethereum address regex `^0x[a-fA-F0-9]{40}$`. -/
def ethAddrOk (a : Str) : Bool :=
  "0x".data.isPrefixOf a && (a.drop 2).all isHexChar && decide (a.length = 42)

/-- The UPI id regex `^[a-zA-Z0-9._-]+@[a-zA-Z0-9._-]+$`: every character
in the class or `@`, exactly one `@`, and the `@` neither first nor
last. -/
def upiIdOk (id : Str) : Bool :=
  id.all (fun c => isPaypalChar c || c = '@') &&
    decide ((id.filter (fun c => c = '@')).length = 1) &&
    id.head? ≠ some '@' && id.getLast? ≠ some '@'

/-- Lowercased string (ASCII, as the suspicious-pattern regexes use
`/i`). -/
def lowerStr (s : Str) : Str := s.map Char.toLower

/-- Source `containsSuspiciousPatterns`. -/
def containsSuspicious (u : Str) : Bool :=
  containsSub "javascript:".data (lowerStr u) || containsSub "data:".data (lowerStr u) ||
  containsSub "vbscript:".data (lowerStr u) || containsSub "<script".data (lowerStr u) ||
  containsSub "onclick".data (lowerStr u) || containsSub "onerror".data (lowerStr u) ||
  containsSub "onload".data (lowerStr u)

/-- The payment-URL validation.  The `new URL` acceptance of the source
is narrowed to lowercase absolute `http://`/`https://` URLs (the only
scheme spellings the claim's round trip can cover, since
`getPaymentTypeFromString` tests the lowercase prefix `http`). -/
def urlOk (u : Str) : Bool :=
  ("http://".data.isPrefixOf u || "https://".data.isPrefixOf u) &&
    decide (u.length ≤ 2048) && !containsSuspicious u

/-- Payment form data (strings as entered; empty string for an absent
field). -/
structure PaymentData where
  paymentType : Str
  paypalUsername : Str
  paypalAmount : Str
  cryptoAddress : Str
  cryptoAmount : Str
  upiId : Str
  upiName : Str
  upiAmount : Str
  ibanCode : Str
  ibanName : Str
  ibanAmount : Str
  paymentUrl : Str
deriving DecidableEq

/-- Source `validatePaymentData` (payment-form-validator.js lines 31-80
with the per-kind helpers): true exactly when the error list stays
empty. -/
def validatePaymentData (p : PaymentData) : Bool :=
  if p.paymentType = "paypal".data then
    requiredOk p.paypalUsername && p.paypalUsername.all isPaypalChar &&
      decide (3 ≤ p.paypalUsername.length) && decide (p.paypalUsername.length ≤ 50) &&
      amountOk p.paypalAmount 10000
  else if p.paymentType = "bitcoin".data then
    requiredOk p.cryptoAddress && btcAddrOk p.cryptoAddress && amountOk p.cryptoAmount 21
  else if p.paymentType = "ethereum".data then
    requiredOk p.cryptoAddress && ethAddrOk p.cryptoAddress && amountOk p.cryptoAmount 1000
  else if p.paymentType = "upi".data then
    requiredOk p.upiId && requiredOk p.upiName && upiIdOk p.upiId &&
      nameOk p.upiName && amountOk p.upiAmount 100000
  else if p.paymentType = "iban".data then
    requiredOk p.ibanCode && requiredOk p.ibanName &&
      ibanFormatOk (cleanIban p.ibanCode) && validateIBANChecksum (cleanIban p.ibanCode) &&
      nameOk p.ibanName && amountOk p.ibanAmount 999999
  else if p.paymentType = "url".data then
    requiredOk p.paymentUrl && urlOk p.paymentUrl
  else false

/-- The encode guard `data.X && parseFloat(X) > 0` for optional
amounts. -/
def amtGuard (a : Str) : Bool := !a.isEmpty && jnumGtZero (jsParseFloat a)

/-- Source `generatePayPalString`. -/
def generatePayPalString (p : PaymentData) : Str :=
  "https://paypal.me/".data ++ p.paypalUsername ++
    (if amtGuard p.paypalAmount then '/' :: p.paypalAmount else [])

/-- Source `generateBitcoinString`. -/
def generateBitcoinString (p : PaymentData) : Str :=
  "bitcoin:".data ++ p.cryptoAddress ++
    (if amtGuard p.cryptoAmount then "?amount=".data ++ p.cryptoAmount else [])

/-- Source `generateEthereumString`. -/
def generateEthereumString (p : PaymentData) : Str :=
  "ethereum:".data ++ p.cryptoAddress ++
    (if amtGuard p.cryptoAmount then "?value=".data ++ p.cryptoAmount else [])

/-- Source `generateUPIString`. -/
def generateUPIString (p : PaymentData) : Str :=
  "upi://pay?pa=".data ++ p.upiId ++ "&pn=".data ++ encodeURIComponent p.upiName ++
    (if amtGuard p.upiAmount then "&am=".data ++ p.upiAmount ++ "&cu=INR".data else [])

/-- Source `generateIBANString`. -/
def generateIBANString (p : PaymentData) : Str :=
  "iban:".data ++ p.ibanCode ++ "?beneficiary=".data ++ encodeURIComponent p.ibanName ++
    (if amtGuard p.ibanAmount then "&amount=".data ++ p.ibanAmount ++ "&currency=EUR".data else [])

/-- Source `generatePaymentString` (main.js lines 396-414); the default
branch throws. -/
def generatePaymentString (p : PaymentData) : JSOutcome Str :=
  if p.paymentType = "paypal".data then .returns (generatePayPalString p)
  else if p.paymentType = "bitcoin".data then .returns (generateBitcoinString p)
  else if p.paymentType = "ethereum".data then .returns (generateEthereumString p)
  else if p.paymentType = "upi".data then .returns (generateUPIString p)
  else if p.paymentType = "iban".data then .returns (generateIBANString p)
  else if p.paymentType = "url".data then .returns p.paymentUrl
  else .throws .paymentGenFailed

/-- Source `getPaymentTypeFromString` (payment-qr-generator.js lines
181-198). -/
def getPaymentTypeFromString (s : Str) : Str :=
  if "https://paypal.me/".data.isPrefixOf s then "paypal".data
  else if "bitcoin:".data.isPrefixOf s then "bitcoin".data
  else if "ethereum:".data.isPrefixOf s then "ethereum".data
  else if "upi://".data.isPrefixOf s then "upi".data
  else if "iban:".data.isPrefixOf s then "iban".data
  else if "http".data.isPrefixOf s then "url".data
  else "unknown".data

/-- Structured result of `extractPaymentInfo` (the source returns plain
objects; the Raw constructors are its `{type, raw}` fallbacks). -/
inductive PaymentInfo where
  | paypal (username : Str) (amount : Option Str) (url : Str) : PaymentInfo
  | paypalRaw (raw : Str) : PaymentInfo
  | bitcoin (address : Str) (amount label message : Option Str) (uri : Str) : PaymentInfo
  | bitcoinRaw (raw : Str) : PaymentInfo
  | ethereum (address : Str) (value gas gasPrice : Option Str) (uri : Str) : PaymentInfo
  | ethereumRaw (raw : Str) : PaymentInfo
  | upi (payeeAddress payeeName amount currency transactionId transactionRef note : Option Str)
      (uri : Str) : PaymentInfo
  | iban (ibanCode : Str) (beneficiary amount currency reference : Option Str)
      (uri : Str) : PaymentInfo
  | ibanRaw (raw : Str) : PaymentInfo
  | url (u : Str) : PaymentInfo
  | unknown (raw : Str) : PaymentInfo
deriving DecidableEq

/-- The regex `https:\/\/paypal\.me\/([a-zA-Z0-9._-]+)(?:\/(.+))?` at one
position. -/
def extractPayPalAt (s : Str) : Option (Str × Option Str) :=
  match expectLit "https://paypal.me/".data s with
  | none => none
  | some r =>
    let u := r.takeWhile isPaypalChar
    if u.isEmpty then none
    else
      match r.dropWhile isPaypalChar with
      | '/' :: rest =>
        let amt := rest.takeWhile (fun c => c ≠ '\n')
        if amt.isEmpty then some (u, none) else some (u, some amt)
      | _ => some (u, none)

/-- The regex `bitcoin:([13][a-km-zA-HJ-NP-Z1-9]{25,34})(?:\?(.*))?` at
one position; the second component is the query captured after `?` (empty
when the optional group matched empty). -/
def extractBitcoinAt (s : Str) : Option (Str × Str) :=
  match expectLit "bitcoin:".data s with
  | none => none
  | some r =>
    match r with
    | [] => none
    | h :: t =>
      if h = '1' ∨ h = '3' then
        let body := (t.takeWhile isBase58).take 34
        if body.length < 25 then none
        else
          match t.drop body.length with
          | '?' :: q => some (h :: body, q.takeWhile (fun c => c ≠ '\n'))
          | _ => some (h :: body, [])
      else none

/-- The regex `ethereum:(0x[a-fA-F0-9]{40})(?:\?(.*))?` at one
position. -/
def extractEthereumAt (s : Str) : Option (Str × Str) :=
  match expectLit "ethereum:".data s with
  | none => none
  | some r =>
    match expectLit "0x".data r with
    | none => none
    | some r2 =>
      let h40 := r2.take 40
      if h40.length = 40 ∧ h40.all isHexChar then
        match r2.drop 40 with
        | '?' :: q => some ("0x".data ++ h40, q.takeWhile (fun c => c ≠ '\n'))
        | _ => some ("0x".data ++ h40, [])
      else none

/-- The regex
`iban:([A-Z]{2}[0-9]{2}[A-Z0-9]{4}[0-9]{7}(?:[A-Z0-9]?){0,16})(?:\?(.*))?`
at one position. -/
def extractIBANAt (s : Str) : Option (Str × Str) :=
  match expectLit "iban:".data s with
  | none => none
  | some r =>
    if (r.take 2).length = 2 ∧ (r.take 2).all isUpperAZ ∧
        ((r.drop 2).take 2).length = 2 ∧ ((r.drop 2).take 2).all isDigitChar ∧
        ((r.drop 4).take 4).length = 4 ∧ ((r.drop 4).take 4).all isUpperDigit ∧
        ((r.drop 8).take 7).length = 7 ∧ ((r.drop 8).take 7).all isDigitChar then
      let tail := ((r.drop 15).takeWhile isUpperDigit).take 16
      match r.drop (15 + tail.length) with
      | '?' :: q => some (r.take (15 + tail.length), q.takeWhile (fun c => c ≠ '\n'))
      | _ => some (r.take (15 + tail.length), [])
    else none

/-- Source `extractPaymentInfo` (payment-qr-generator.js lines 200-308)
with the per-kind extraction helpers inlined. -/
def extractPaymentInfo (s : Str) : PaymentInfo :=
  let t := getPaymentTypeFromString s
  if t = "paypal".data then
    match searchFrom extractPayPalAt s with
    | some (u, a) => .paypal u a s
    | none => .paypalRaw s
  else if t = "bitcoin".data then
    match searchFrom extractBitcoinAt s with
    | some (addr, q) =>
      .bitcoin addr (getParam "amount".data q) (getParam "label".data q)
        (getParam "message".data q) s
    | none => .bitcoinRaw s
  else if t = "ethereum".data then
    match searchFrom extractEthereumAt s with
    | some (addr, q) =>
      .ethereum addr (getParam "value".data q) (getParam "gas".data q)
        (getParam "gasPrice".data q) s
    | none => .ethereumRaw s
  else if t = "upi".data then
    let q := (splitOnChar '?' s).getD 1 []
    .upi (getParam "pa".data q) (getParam "pn".data q) (getParam "am".data q)
      (getParam "cu".data q) (getParam "tid".data q) (getParam "tr".data q)
      (getParam "tn".data q) s
  else if t = "iban".data then
    match searchFrom extractIBANAt s with
    | some (code, q) =>
      .iban code (getParam "beneficiary".data q) (getParam "amount".data q)
        (getParam "currency".data q) (getParam "reference".data q) s
    | none => .ibanRaw s
  else if t = "url".data then .url s
  else .unknown s

/-- The amount field as recovered by decoding: present exactly when the
encoder's guard put it into the string. -/
def amtOpt (a : Str) : Option Str := if amtGuard a then some a else none

/-- The round-trip specification: the structured info that extraction
should recover from an instruction's generated string. -/
def expectedPaymentInfo (p : PaymentData) : PaymentInfo :=
  if p.paymentType = "paypal".data then
    .paypal p.paypalUsername (amtOpt p.paypalAmount) (generatePayPalString p)
  else if p.paymentType = "bitcoin".data then
    .bitcoin p.cryptoAddress (amtOpt p.cryptoAmount) none none (generateBitcoinString p)
  else if p.paymentType = "ethereum".data then
    .ethereum p.cryptoAddress (amtOpt p.cryptoAmount) none none (generateEthereumString p)
  else if p.paymentType = "upi".data then
    .upi (some p.upiId) (some p.upiName) (amtOpt p.upiAmount)
      (if amtGuard p.upiAmount then some "INR".data else none) none none none
      (generateUPIString p)
  else if p.paymentType = "iban".data then
    .iban p.ibanCode (some p.ibanName) (amtOpt p.ibanAmount)
      (if amtGuard p.ibanAmount then some "EUR".data else none) none
      (generateIBANString p)
  else .url p.paymentUrl

/-- The plain-decimal amount grammar `^[0-9]+(\.[0-9]+)?$` (canonical
amounts; `parseFloat` accepts more spellings, which the URL layers do not
transport verbatim). -/
def decimalNumeral (a : Str) : Bool :=
  !(a.takeWhile isDigitChar).isEmpty &&
    ((a.dropWhile isDigitChar).isEmpty ||
      (decide ((a.dropWhile isDigitChar).head? = some '.') &&
        !((a.dropWhile isDigitChar).tail).isEmpty &&
        ((a.dropWhile isDigitChar).tail).all isDigitChar))

/-- Canonical amount: absent or a plain decimal numeral. -/
def canonicalAmount (a : Str) : Bool := a.isEmpty || decimalNumeral a

/-- ASCII-only string. -/
def asciiStr (s : Str) : Bool := s.all (fun c => decide (c.toNat < 128))

/-- The canonical-form side conditions of the amended claim: amounts are
plain decimal numerals, names are ASCII, the IBAN code is entered in its
clean form (uppercase, no spaces), and a url-kind URL does not itself
carry the PayPal prefix that extraction recognizes first. -/
def canonicalPayment (p : PaymentData) : Bool :=
  if p.paymentType = "paypal".data then canonicalAmount p.paypalAmount
  else if p.paymentType = "bitcoin".data then canonicalAmount p.cryptoAmount
  else if p.paymentType = "ethereum".data then canonicalAmount p.cryptoAmount
  else if p.paymentType = "upi".data then
    canonicalAmount p.upiAmount && asciiStr p.upiName
  else if p.paymentType = "iban".data then
    canonicalAmount p.ibanAmount && asciiStr p.ibanName && ibanFormatOk p.ibanCode
  else !("https://paypal.me/".data.isPrefixOf p.paymentUrl)

/-- The lowercase-IBAN instruction of the counterexample (the validator
accepts it because it validates a cleaned copy of the code). -/
def lowercaseIbanPayment : PaymentData :=
  ⟨"iban".data, [], [], [], [], [], [], [],
    "de89370400440532013000".data, "Jo".data, [], []⟩

/-- C4 counterexample: a validator-accepted IBAN instruction whose code
was entered in lowercase encodes to a string from which extraction
recovers only the raw fallback — not the IBAN code and parameters the
claim promises. -/
theorem payment_roundtrip_counterexample :
    validatePaymentData lowercaseIbanPayment = true ∧
    generatePaymentString lowercaseIbanPayment =
      .returns "iban:de89370400440532013000?beneficiary=Jo".data ∧
    extractPaymentInfo "iban:de89370400440532013000?beneficiary=Jo".data =
      .ibanRaw "iban:de89370400440532013000?beneficiary=Jo".data ∧
    extractPaymentInfo "iban:de89370400440532013000?beneficiary=Jo".data ≠
      expectedPaymentInfo lowercaseIbanPayment :=
  ⟨by decide, by decide, by decide, by decide⟩

theorem ne_of_class {p : Char → Bool} {c0 : Char} (h0 : p c0 = false) {c : Char}
    (hc : p c = true) : c ≠ c0 := by
  intro he
  rw [he, h0] at hc
  exact Bool.noConfusion hc

theorem takeWhile_append_all {p : Char → Bool} {u : Str} (v : Str)
    (hu : ∀ c ∈ u, p c = true) (hv : ∀ c, v.head? = some c → p c = false) :
    (u ++ v).takeWhile p = u := by
  induction u with
  | nil =>
    cases v with
    | nil => rfl
    | cons c t => simp [List.takeWhile_cons, hv c rfl]
  | cons c u ih =>
    simp only [List.cons_append, List.takeWhile_cons, hu c (List.mem_cons_self c u), if_true]
    rw [ih (fun x hx => hu x (List.mem_cons_of_mem _ hx))]

theorem dropWhile_append_all {p : Char → Bool} {u : Str} (v : Str)
    (hu : ∀ c ∈ u, p c = true) (hv : ∀ c, v.head? = some c → p c = false) :
    (u ++ v).dropWhile p = v := by
  induction u with
  | nil =>
    cases v with
    | nil => rfl
    | cons c t => simp [List.dropWhile_cons, hv c rfl]
  | cons c u ih =>
    simp only [List.cons_append, List.dropWhile_cons, hu c (List.mem_cons_self c u), if_true]
    exact ih (fun x hx => hu x (List.mem_cons_of_mem _ hx))

theorem expectLit_append (l r : Str) : expectLit l (l ++ r) = some r := by
  induction l with
  | nil => rfl
  | cons c t ih => simp [expectLit, ih]

theorem searchFrom_eq_of_pos {α : Type} {f : Str → Option α} {s : Str} {r : α}
    (h : f s = some r) : searchFrom f s = some r := by
  cases s with
  | nil => simpa [searchFrom] using h
  | cons c t => simp [searchFrom, h]

theorem splitOnChar_not_mem {c : Char} {s : Str} (h : ∀ x ∈ s, x ≠ c) :
    splitOnChar c s = [s] := by
  induction s with
  | nil => rfl
  | cons x t ih =>
    simp only [splitOnChar, if_neg (h x (List.mem_cons_self x t))]
    rw [ih (fun a ha => h a (List.mem_cons_of_mem _ ha))]

theorem splitOnChar_append {c : Char} (x y : Str) (h : ∀ a ∈ x, a ≠ c) :
    splitOnChar c (x ++ c :: y) = x :: splitOnChar c y := by
  induction x with
  | nil => simp [splitOnChar]
  | cons a t ih =>
    simp only [List.cons_append, splitOnChar, List.append_eq,
      if_neg (h a (List.mem_cons_self a t))]
    rw [ih (fun b hb => h b (List.mem_cons_of_mem _ hb))]

theorem splitFirstEq_pair (k v : Str) (hk : ∀ a ∈ k, a ≠ '=') :
    splitFirstEq (k ++ '=' :: v) = (decodePlus k, decodePlus v) := by
  unfold splitFirstEq
  have ht : (k ++ '=' :: v).takeWhile (fun c => c ≠ '=') = k :=
    takeWhile_append_all _ (fun c hc => decide_eq_true (hk c hc))
      (fun c hh => by cases hh; simp)
  have hd : (k ++ '=' :: v).dropWhile (fun c => c ≠ '=') = '=' :: v :=
    dropWhile_append_all _ (fun c hc => decide_eq_true (hk c hc))
      (fun c hh => by cases hh; simp)
  rw [ht, hd]
  rfl

theorem parseParams_single (k v : Str) (hk : ∀ a ∈ k, a ≠ '=' ∧ a ≠ '&')
    (hv : ∀ a ∈ v, a ≠ '&') :
    parseParams (k ++ '=' :: v) = [(decodePlus k, decodePlus v)] := by
  unfold parseParams
  rw [splitOnChar_not_mem (c := '&') (s := k ++ '=' :: v) ?hmem]
  case hmem =>
    intro a ha
    rcases List.mem_append.mp ha with h | h
    · exact (hk a h).2
    · rcases List.mem_cons.mp h with rfl | h
      · decide
      · exact hv a h
  have hne : (k ++ '=' :: v).isEmpty = false := by
    cases k <;> rfl
  simp only [List.filterMap_cons, List.filterMap_nil, hne, Bool.false_eq_true, if_false]
  rw [splitFirstEq_pair k v (fun a ha => (hk a ha).1)]

theorem parseParams_cons (k v rest : Str) (hk : ∀ a ∈ k, a ≠ '=' ∧ a ≠ '&')
    (hv : ∀ a ∈ v, a ≠ '&') :
    parseParams ((k ++ '=' :: v) ++ '&' :: rest) =
      (decodePlus k, decodePlus v) :: parseParams rest := by
  unfold parseParams
  rw [splitOnChar_append (k ++ '=' :: v) rest ?hmem]
  case hmem =>
    intro a ha
    rcases List.mem_append.mp ha with h | h
    · exact (hk a h).2
    · rcases List.mem_cons.mp h with rfl | h
      · decide
      · exact hv a h
  have hne : (k ++ '=' :: v).isEmpty = false := by
    cases k <;> rfl
  simp only [List.filterMap_cons, hne, Bool.false_eq_true, if_false]
  rw [splitFirstEq_pair k v (fun a ha => (hk a ha).1)]

theorem decodePlusAux_plain (f : Nat) (s : Str) (hf : s.length ≤ f)
    (h : ∀ c ∈ s, c ≠ '%' ∧ c ≠ '+') : decodePlusAux f s = s := by
  induction f generalizing s with
  | zero =>
    cases s with
    | nil => rfl
    | cons c t => simp at hf
  | succ f ih =>
    cases s with
    | nil => rfl
    | cons c t =>
      have hc := h c (List.mem_cons_self c t)
      simp only [decodePlusAux, if_neg hc.2, if_neg hc.1]
      rw [ih t (by simp at hf; omega) (fun x hx => h x (List.mem_cons_of_mem _ hx))]

theorem decodePlus_plain (s : Str) (h : ∀ c ∈ s, c ≠ '%' ∧ c ≠ '+') :
    decodePlus s = s :=
  decodePlusAux_plain s.length s le_rfl h

theorem isHexChar_hexDigitUpper (m : Nat) (h : m < 16) :
    isHexChar (hexDigitUpper m) = true := by
  interval_cases m <;> decide

theorem hexVal_hexDigitUpper (m : Nat) (h : m < 16) :
    hexVal (hexDigitUpper m) = m := by
  interval_cases m <;> decide

theorem char_ofNat_toNat (c : Char) (h : c.toNat < 128) : Char.ofNat c.toNat = c := by
  have hv : c.toNat.isValidChar := Or.inl (by omega)
  rw [Char.ofNat, dif_pos hv]
  apply Char.eq_of_val_eq
  simp only [Char.ofNatAux]
  apply UInt32.ext
  simp [UInt32.toNat, Char.toNat]

theorem decodeAux_enc (s : Str) (ha : ∀ c ∈ s, c.toNat < 128) :
    ∀ f, (encodeURIComponent s).length ≤ f → decodePlusAux f (encodeURIComponent s) = s := by
  induction s with
  | nil =>
    intro f _
    cases f <;> rfl
  | cons c t ih =>
    intro f hf
    have hac := ha c (List.mem_cons_self c t)
    have hat : ∀ x ∈ t, x.toNat < 128 := fun x hx => ha x (List.mem_cons_of_mem _ hx)
    by_cases hu : isUnreservedURI c = true
    · have henc : encodeURIComponent (c :: t) = c :: encodeURIComponent t := by
        simp [encodeURIComponent, hu]
      rw [henc] at hf ⊢
      cases f with
      | zero => simp at hf
      | succ f =>
        have hplus : c ≠ '+' := ne_of_class (p := isUnreservedURI) (by decide) hu
        have hperc : c ≠ '%' := ne_of_class (p := isUnreservedURI) (by decide) hu
        simp only [decodePlusAux, if_neg hplus, if_neg hperc]
        rw [ih hat f (by simp at hf; omega)]
    · have henc : encodeURIComponent (c :: t) =
          '%' :: hexDigitUpper (c.toNat / 16) :: hexDigitUpper (c.toNat % 16) ::
            encodeURIComponent t := by
        simp only [encodeURIComponent, List.flatMap_cons, hu, Bool.false_eq_true, if_false]
        rw [utf8Bytes, if_pos hac]
        rfl
      rw [henc] at hf ⊢
      cases f with
      | zero => simp at hf
      | succ f =>
        have hdiv : c.toNat / 16 < 16 := by omega
        have hmod : c.toNat % 16 < 16 := Nat.mod_lt _ (by norm_num)
        have hcond : (isHexChar (hexDigitUpper (c.toNat / 16)) &&
            isHexChar (hexDigitUpper (c.toNat % 16))) = true := by
          rw [isHexChar_hexDigitUpper _ hdiv, isHexChar_hexDigitUpper _ hmod]
          rfl
        have harg : c.toNat / 16 * 16 + c.toNat % 16 = c.toNat := by omega
        have hb : byteToChar (hexVal (hexDigitUpper (c.toNat / 16)) * 16 +
            hexVal (hexDigitUpper (c.toNat % 16))) = c := by
          rw [hexVal_hexDigitUpper _ hdiv, hexVal_hexDigitUpper _ hmod, harg,
            byteToChar, if_pos hac, char_ofNat_toNat c hac]
        have hlen : (encodeURIComponent t).length ≤ f := by simp at hf; omega
        simp [decodePlusAux, hcond, hb, ih hat f hlen]

theorem decodePlus_encode (s : Str) (ha : asciiStr s = true) :
    decodePlus (encodeURIComponent s) = s := by
  have ha' : ∀ c ∈ s, c.toNat < 128 := by
    intro c hc
    have := List.all_eq_true.mp ha c hc
    simpa using this
  exact decodeAux_enc s ha' _ le_rfl

theorem mem_encodeURIComponent {s : Str} (ha : asciiStr s = true) {c0 : Char}
    (hc0 : c0 ∈ encodeURIComponent s) :
    isUnreservedURI c0 = true ∨ c0 = '%' ∨ isHexChar c0 = true := by
  simp only [encodeURIComponent, List.mem_flatMap] at hc0
  obtain ⟨c, hc, hmem⟩ := hc0
  have hac : c.toNat < 128 := by
    have := List.all_eq_true.mp ha c hc
    simpa using this
  by_cases hu : isUnreservedURI c = true
  · rw [if_pos hu] at hmem
    rcases List.mem_cons.mp hmem with rfl | hmem
    · exact Or.inl hu
    · simp at hmem
  · rw [if_neg hu] at hmem
    rw [utf8Bytes, if_pos hac] at hmem
    simp only [List.flatMap_cons, List.flatMap_nil, List.append_nil, percentByte] at hmem
    rcases List.mem_cons.mp hmem with rfl | hmem
    · exact Or.inr (Or.inl rfl)
    · rcases List.mem_cons.mp hmem with rfl | hmem
      · exact Or.inr (Or.inr (isHexChar_hexDigitUpper _ (by omega)))
      · rcases List.mem_cons.mp hmem with rfl | hmem
        · exact Or.inr (Or.inr (isHexChar_hexDigitUpper _ (Nat.mod_lt _ (by norm_num))))
        · simp at hmem

theorem not_mem_encodeURIComponent {s : Str} (ha : asciiStr s = true) (c0 : Char)
    (h1 : isUnreservedURI c0 = false) (h2 : c0 ≠ '%') (h3 : isHexChar c0 = false) :
    c0 ∉ encodeURIComponent s := by
  intro hmem
  rcases mem_encodeURIComponent ha hmem with h | h | h
  · rw [h1] at h; exact Bool.noConfusion h
  · exact h2 h
  · rw [h3] at h; exact Bool.noConfusion h

theorem jsTrim_eq_self (s : Str) (h : ∀ c ∈ s, jsWhitespace c = false) : jsTrim s = s := by
  have h1 : s.dropWhile jsWhitespace = s := by
    cases s with
    | nil => rfl
    | cons c t => simp [List.dropWhile_cons, h c (List.mem_cons_self c t)]
  rw [jsTrim, h1]
  have h2 : s.reverse.dropWhile jsWhitespace = s.reverse := by
    cases hr : s.reverse with
    | nil => rfl
    | cons c t =>
      have hc : c ∈ s := by
        rw [← List.mem_reverse, hr]
        exact List.mem_cons_self c t
      simp [List.dropWhile_cons, h c hc]
  rw [h2, List.reverse_reverse]

theorem decimalNumeral_chars {a : Str} (h : decimalNumeral a = true) :
    ∀ c ∈ a, isDigitChar c = true ∨ c = '.' := by
  intro c hc
  simp only [decimalNumeral, Bool.and_eq_true, Bool.or_eq_true] at h
  rw [← List.takeWhile_append_dropWhile (p := isDigitChar) (l := a)] at hc
  rcases List.mem_append.mp hc with hm | hm
  · exact Or.inl (List.mem_takeWhile_imp hm)
  · obtain ⟨-, h2⟩ := h
    cases hd : a.dropWhile isDigitChar with
    | nil => rw [hd] at hm; simp at hm
    | cons x f =>
      rw [hd] at h2 hm
      rcases h2 with h2 | h2
      · simp at h2
      · simp only [Bool.and_eq_true, decide_eq_true_eq, List.head?_cons,
          Option.some.injEq, List.tail_cons] at h2
        obtain ⟨⟨hx, -⟩, hall⟩ := h2
        subst hx
        rcases List.mem_cons.mp hm with rfl | hm
        · exact Or.inr rfl
        · exact Or.inl (List.all_eq_true.mp hall c hm)

theorem wsNat_false_of_mid (n : Nat) (h1 : 33 ≤ n) (h2 : n ≤ 127) : wsNat n = false := by
  interval_cases n <;> decide

theorem digit_dot_not_ws (c : Char) (h : isDigitChar c = true ∨ c = '.') :
    jsWhitespace c = false := by
  have hb : 46 ≤ c.toNat ∧ c.toNat ≤ 57 := by
    rcases h with h | h
    · simp only [isDigitChar, Bool.and_eq_true, decide_eq_true_eq] at h
      omega
    · subst h
      exact ⟨by decide, by decide⟩
  exact wsNat_false_of_mid c.toNat (by omega) (by omega)

theorem takeWhile_all {p : Char → Bool} {s : Str} (h : ∀ c ∈ s, p c = true) :
    s.takeWhile p = s := by
  induction s with
  | nil => rfl
  | cons c t ih =>
    simp only [List.takeWhile_cons, h c (List.mem_cons_self c t), if_true]
    rw [ih (fun x hx => h x (List.mem_cons_of_mem _ hx))]

theorem dropWhile_all {p : Char → Bool} {s : Str} (h : ∀ c ∈ s, p c = true) :
    s.dropWhile p = [] := by
  induction s with
  | nil => rfl
  | cons c t ih =>
    simp only [List.dropWhile_cons, h c (List.mem_cons_self c t), if_true]
    exact ih (fun x hx => h x (List.mem_cons_of_mem _ hx))

theorem amtGuard_of_valid (a : Str) (upper : Nat) (hne : a ≠ [])
    (hd : decimalNumeral a = true) (hok : amountOk a upper = true) :
    amtGuard a = true := by
  have hnw : ∀ c ∈ a, jsWhitespace c = false :=
    fun c hc => digit_dot_not_ws c (decimalNumeral_chars hd c hc)
  have hemp : a.isEmpty = false := by
    cases a with
    | nil => exact absurd rfl hne
    | cons c t => rfl
  have htrim : jsTrim a = a := jsTrim_eq_self a hnw
  rw [amountOk, htrim, hemp] at hok
  simp only [Bool.or_self, Bool.false_eq_true, if_false, Bool.and_eq_true] at hok
  simp [amtGuard, hemp, hok.1]

theorem isPrefixOf_append (l r : Str) : l.isPrefixOf (l ++ r) = true := by
  rw [List.isPrefixOf_iff_prefix]
  exact List.prefix_append l r

theorem isPrefixOf_head_ne {c c' : Char} (l t : Str) (h : c ≠ c') :
    (c :: l).isPrefixOf (c' :: t) = false := by
  simp [List.isPrefixOf, h]

theorem not_true_of_false {b : Bool} (h : b = false) : ¬ b = true := by
  rw [h]
  exact Bool.false_ne_true

theorem getType_paypal (x : Str) :
    getPaymentTypeFromString ("https://paypal.me/".data ++ x) = "paypal".data := by
  unfold getPaymentTypeFromString
  rw [if_pos (isPrefixOf_append _ _)]

theorem getType_bitcoin (x : Str) :
    getPaymentTypeFromString ("bitcoin:".data ++ x) = "bitcoin".data := by
  unfold getPaymentTypeFromString
  have h1 : "https://paypal.me/".data.isPrefixOf ("bitcoin:".data ++ x) = false := by
    rw [show "https://paypal.me/".data = 'h' :: "ttps://paypal.me/".data from rfl,
      show ("bitcoin:".data ++ x) = 'b' :: ("itcoin:".data ++ x) from rfl]
    exact isPrefixOf_head_ne _ _ (by decide)
  rw [if_neg (not_true_of_false h1), if_pos (isPrefixOf_append _ _)]

theorem getType_ethereum (x : Str) :
    getPaymentTypeFromString ("ethereum:".data ++ x) = "ethereum".data := by
  unfold getPaymentTypeFromString
  have h1 : "https://paypal.me/".data.isPrefixOf ("ethereum:".data ++ x) = false := by
    rw [show "https://paypal.me/".data = 'h' :: "ttps://paypal.me/".data from rfl,
      show ("ethereum:".data ++ x) = 'e' :: ("thereum:".data ++ x) from rfl]
    exact isPrefixOf_head_ne _ _ (by decide)
  have h2 : "bitcoin:".data.isPrefixOf ("ethereum:".data ++ x) = false := by
    rw [show "bitcoin:".data = 'b' :: "itcoin:".data from rfl,
      show ("ethereum:".data ++ x) = 'e' :: ("thereum:".data ++ x) from rfl]
    exact isPrefixOf_head_ne _ _ (by decide)
  rw [if_neg (not_true_of_false h1), if_neg (not_true_of_false h2),
    if_pos (isPrefixOf_append _ _)]

theorem getType_upi (x : Str) :
    getPaymentTypeFromString ("upi://pay?pa=".data ++ x) = "upi".data := by
  unfold getPaymentTypeFromString
  have h1 : "https://paypal.me/".data.isPrefixOf ("upi://pay?pa=".data ++ x) = false := by
    rw [show "https://paypal.me/".data = 'h' :: "ttps://paypal.me/".data from rfl,
      show ("upi://pay?pa=".data ++ x) = 'u' :: ("pi://pay?pa=".data ++ x) from rfl]
    exact isPrefixOf_head_ne _ _ (by decide)
  have h2 : "bitcoin:".data.isPrefixOf ("upi://pay?pa=".data ++ x) = false := by
    rw [show "bitcoin:".data = 'b' :: "itcoin:".data from rfl,
      show ("upi://pay?pa=".data ++ x) = 'u' :: ("pi://pay?pa=".data ++ x) from rfl]
    exact isPrefixOf_head_ne _ _ (by decide)
  have h3 : "ethereum:".data.isPrefixOf ("upi://pay?pa=".data ++ x) = false := by
    rw [show "ethereum:".data = 'e' :: "thereum:".data from rfl,
      show ("upi://pay?pa=".data ++ x) = 'u' :: ("pi://pay?pa=".data ++ x) from rfl]
    exact isPrefixOf_head_ne _ _ (by decide)
  have h4 : "upi://".data.isPrefixOf ("upi://pay?pa=".data ++ x) = true := by
    rw [show ("upi://pay?pa=".data ++ x) = "upi://".data ++ ("pay?pa=".data ++ x) from rfl]
    exact isPrefixOf_append _ _
  rw [if_neg (not_true_of_false h1), if_neg (not_true_of_false h2),
    if_neg (not_true_of_false h3), if_pos h4]

theorem getType_iban (x : Str) :
    getPaymentTypeFromString ("iban:".data ++ x) = "iban".data := by
  unfold getPaymentTypeFromString
  have h1 : "https://paypal.me/".data.isPrefixOf ("iban:".data ++ x) = false := by
    rw [show "https://paypal.me/".data = 'h' :: "ttps://paypal.me/".data from rfl,
      show ("iban:".data ++ x) = 'i' :: ("ban:".data ++ x) from rfl]
    exact isPrefixOf_head_ne _ _ (by decide)
  have h2 : "bitcoin:".data.isPrefixOf ("iban:".data ++ x) = false := by
    rw [show "bitcoin:".data = 'b' :: "itcoin:".data from rfl,
      show ("iban:".data ++ x) = 'i' :: ("ban:".data ++ x) from rfl]
    exact isPrefixOf_head_ne _ _ (by decide)
  have h3 : "ethereum:".data.isPrefixOf ("iban:".data ++ x) = false := by
    rw [show "ethereum:".data = 'e' :: "thereum:".data from rfl,
      show ("iban:".data ++ x) = 'i' :: ("ban:".data ++ x) from rfl]
    exact isPrefixOf_head_ne _ _ (by decide)
  have h4 : "upi://".data.isPrefixOf ("iban:".data ++ x) = false := by
    rw [show "upi://".data = 'u' :: "pi://".data from rfl,
      show ("iban:".data ++ x) = 'i' :: ("ban:".data ++ x) from rfl]
    exact isPrefixOf_head_ne _ _ (by decide)
  rw [if_neg (not_true_of_false h1), if_neg (not_true_of_false h2),
    if_neg (not_true_of_false h3), if_neg (not_true_of_false h4),
    if_pos (isPrefixOf_append _ _)]

theorem getType_url (s : Str) (hp : ("http://".data.isPrefixOf s || "https://".data.isPrefixOf s) = true)
    (hnp : "https://paypal.me/".data.isPrefixOf s = false) :
    getPaymentTypeFromString s = "url".data := by
  have hhttp : ∃ t, s = "http".data ++ t := by
    rcases Bool.or_eq_true_iff.mp hp with h | h
    · obtain ⟨t, ht⟩ := List.isPrefixOf_iff_prefix.mp h
      exact ⟨"://".data ++ t, by rw [← ht]; rfl⟩
    · obtain ⟨t, ht⟩ := List.isPrefixOf_iff_prefix.mp h
      exact ⟨"s://".data ++ t, by rw [← ht]; rfl⟩
  obtain ⟨t, rfl⟩ := hhttp
  unfold getPaymentTypeFromString
  have h2 : "bitcoin:".data.isPrefixOf ("http".data ++ t) = false := by
    rw [show "bitcoin:".data = 'b' :: "itcoin:".data from rfl,
      show ("http".data ++ t) = 'h' :: ("ttp".data ++ t) from rfl]
    exact isPrefixOf_head_ne _ _ (by decide)
  have h3 : "ethereum:".data.isPrefixOf ("http".data ++ t) = false := by
    rw [show "ethereum:".data = 'e' :: "thereum:".data from rfl,
      show ("http".data ++ t) = 'h' :: ("ttp".data ++ t) from rfl]
    exact isPrefixOf_head_ne _ _ (by decide)
  have h4 : "upi://".data.isPrefixOf ("http".data ++ t) = false := by
    rw [show "upi://".data = 'u' :: "pi://".data from rfl,
      show ("http".data ++ t) = 'h' :: ("ttp".data ++ t) from rfl]
    exact isPrefixOf_head_ne _ _ (by decide)
  have h5 : "iban:".data.isPrefixOf ("http".data ++ t) = false := by
    rw [show "iban:".data = 'i' :: "ban:".data from rfl,
      show ("http".data ++ t) = 'h' :: ("ttp".data ++ t) from rfl]
    exact isPrefixOf_head_ne _ _ (by decide)
  rw [if_neg (not_true_of_false hnp), if_neg (not_true_of_false h2),
    if_neg (not_true_of_false h3), if_neg (not_true_of_false h4),
    if_neg (not_true_of_false h5), if_pos (isPrefixOf_append _ _)]

theorem isEmpty_false_of_ne {s : Str} (h : s ≠ []) : s.isEmpty = false := by
  cases s with
  | nil => exact absurd rfl h
  | cons c t => rfl

theorem extractPaymentInfo_eq_paypal {s u : Str} {a : Option Str}
    (h : getPaymentTypeFromString s = "paypal".data)
    (hres : searchFrom extractPayPalAt s = some (u, a)) :
    extractPaymentInfo s = .paypal u a s := by
  unfold extractPaymentInfo
  rw [h, hres]
  simp

theorem extractPaymentInfo_eq_bitcoin {s addr q : Str}
    (h : getPaymentTypeFromString s = "bitcoin".data)
    (hres : searchFrom extractBitcoinAt s = some (addr, q)) :
    extractPaymentInfo s =
      .bitcoin addr (getParam "amount".data q) (getParam "label".data q)
        (getParam "message".data q) s := by
  unfold extractPaymentInfo
  rw [h, hres]
  simp

theorem extractPaymentInfo_eq_ethereum {s addr q : Str}
    (h : getPaymentTypeFromString s = "ethereum".data)
    (hres : searchFrom extractEthereumAt s = some (addr, q)) :
    extractPaymentInfo s =
      .ethereum addr (getParam "value".data q) (getParam "gas".data q)
        (getParam "gasPrice".data q) s := by
  unfold extractPaymentInfo
  rw [h, hres]
  simp

theorem extractPaymentInfo_eq_upi {s : Str}
    (h : getPaymentTypeFromString s = "upi".data) :
    extractPaymentInfo s =
      .upi (getParam "pa".data ((splitOnChar '?' s).getD 1 []))
        (getParam "pn".data ((splitOnChar '?' s).getD 1 []))
        (getParam "am".data ((splitOnChar '?' s).getD 1 []))
        (getParam "cu".data ((splitOnChar '?' s).getD 1 []))
        (getParam "tid".data ((splitOnChar '?' s).getD 1 []))
        (getParam "tr".data ((splitOnChar '?' s).getD 1 []))
        (getParam "tn".data ((splitOnChar '?' s).getD 1 [])) s := by
  unfold extractPaymentInfo
  rw [h]
  simp

theorem extractPaymentInfo_eq_iban {s code q : Str}
    (h : getPaymentTypeFromString s = "iban".data)
    (hres : searchFrom extractIBANAt s = some (code, q)) :
    extractPaymentInfo s =
      .iban code (getParam "beneficiary".data q) (getParam "amount".data q)
        (getParam "currency".data q) (getParam "reference".data q) s := by
  unfold extractPaymentInfo
  rw [h, hres]
  simp

theorem extractPaymentInfo_eq_url {s : Str}
    (h : getPaymentTypeFromString s = "url".data) :
    extractPaymentInfo s = .url s := by
  unfold extractPaymentInfo
  rw [h]
  simp

theorem extract_paypal_amt (u amt : Str) (hu : ∀ c ∈ u, isPaypalChar c = true)
    (hune : u ≠ []) (hamtne : amt ≠ [])
    (hch : ∀ c ∈ amt, isDigitChar c = true ∨ c = '.') :
    extractPaymentInfo ("https://paypal.me/".data ++ (u ++ '/' :: amt)) =
      .paypal u (some amt) ("https://paypal.me/".data ++ (u ++ '/' :: amt)) := by
  have hanl : ∀ c ∈ amt, (fun c => decide (c ≠ '\n')) c = true := by
    intro c hc
    rcases hch c hc with h | h
    · exact decide_eq_true (ne_of_class (p := isDigitChar) (by decide) h)
    · subst h; decide
  have hat : extractPayPalAt ("https://paypal.me/".data ++ (u ++ '/' :: amt)) =
      some (u, some amt) := by
    have h1 := expectLit_append "https://paypal.me/".data (u ++ '/' :: amt)
    have h2 : (u ++ '/' :: amt).takeWhile isPaypalChar = u :=
      takeWhile_append_all _ hu (fun c hh => by
        simp only [List.head?_cons, Option.some.injEq] at hh
        subst hh; decide)
    have h3 : (u ++ '/' :: amt).dropWhile isPaypalChar = '/' :: amt :=
      dropWhile_append_all _ hu (fun c hh => by
        simp only [List.head?_cons, Option.some.injEq] at hh
        subst hh; decide)
    have h5 : amt.takeWhile (fun c => c ≠ '\n') = amt := takeWhile_all hanl
    simp only [extractPayPalAt, h1, h2, h3, h5, isEmpty_false_of_ne hune,
      isEmpty_false_of_ne hamtne, Bool.false_eq_true, if_false]
  exact extractPaymentInfo_eq_paypal (getType_paypal _) (searchFrom_eq_of_pos hat)

theorem extract_paypal_noamt (u : Str) (hu : ∀ c ∈ u, isPaypalChar c = true)
    (hune : u ≠ []) :
    extractPaymentInfo ("https://paypal.me/".data ++ u) =
      .paypal u none ("https://paypal.me/".data ++ u) := by
  have hat : extractPayPalAt ("https://paypal.me/".data ++ u) = some (u, none) := by
    have h1 := expectLit_append "https://paypal.me/".data u
    have h2 : u.takeWhile isPaypalChar = u := takeWhile_all hu
    have h3 : u.dropWhile isPaypalChar = [] := dropWhile_all hu
    simp only [extractPayPalAt, h1, h2, h3, isEmpty_false_of_ne hune,
      Bool.false_eq_true, if_false]
  exact extractPaymentInfo_eq_paypal (getType_paypal _) (searchFrom_eq_of_pos hat)

theorem decimal_ne_amp {amt : Str} (hch : ∀ c ∈ amt, isDigitChar c = true ∨ c = '.') :
    ∀ a ∈ amt, a ≠ '&' := by
  intro a ha
  rcases hch a ha with h | h
  · exact ne_of_class (p := isDigitChar) (by decide) h
  · subst h; decide

theorem decimal_no_newline {amt : Str} (hch : ∀ c ∈ amt, isDigitChar c = true ∨ c = '.') :
    ∀ c ∈ amt, (fun c => decide (c ≠ '\n')) c = true := by
  intro c hc
  rcases hch c hc with h | h
  · exact decide_eq_true (ne_of_class (p := isDigitChar) (by decide) h)
  · subst h; decide

theorem decimal_decode {amt : Str} (hch : ∀ c ∈ amt, isDigitChar c = true ∨ c = '.') :
    decodePlus amt = amt := by
  apply decodePlus_plain
  intro c hc
  rcases hch c hc with h | h
  · exact ⟨ne_of_class (p := isDigitChar) (by decide) h,
      ne_of_class (p := isDigitChar) (by decide) h⟩
  · subst h; exact ⟨by decide, by decide⟩

theorem parseParams_amount {amt : Str} (hch : ∀ c ∈ amt, isDigitChar c = true ∨ c = '.') :
    parseParams ("amount=".data ++ amt) = [("amount".data, amt)] := by
  rw [show ("amount=".data ++ amt) = "amount".data ++ '=' :: amt from rfl]
  rw [parseParams_single "amount".data amt (by decide) (decimal_ne_amp hch)]
  rw [decimal_decode hch]
  rfl

theorem extractBitcoinAt_query (h : Char) (t q : Str)
    (hh : h = '1' ∨ h = '3') (ht : ∀ c ∈ t, isBase58 c = true)
    (hlen1 : 25 ≤ t.length) (hlen2 : t.length ≤ 34) :
    extractBitcoinAt ("bitcoin:".data ++ ((h :: t) ++ ('?' :: q))) =
      some (h :: t, q.takeWhile (fun c => c ≠ '\n')) := by
  unfold extractBitcoinAt
  rw [expectLit_append, List.cons_append]
  have h2 : (t ++ '?' :: q).takeWhile isBase58 = t :=
    takeWhile_append_all _ ht (fun c hhd => by
      simp only [List.head?_cons, Option.some.injEq] at hhd
      subst hhd; decide)
  have h4 : (t ++ '?' :: q).drop t.length = '?' :: q := List.drop_left t _
  simp only [h2, List.take_of_length_le hlen2, h4]
  rw [if_pos hh, if_neg (by omega : ¬ t.length < 25)]

theorem extractBitcoinAt_plain (h : Char) (t : Str)
    (hh : h = '1' ∨ h = '3') (ht : ∀ c ∈ t, isBase58 c = true)
    (hlen1 : 25 ≤ t.length) (hlen2 : t.length ≤ 34) :
    extractBitcoinAt ("bitcoin:".data ++ (h :: t)) = some (h :: t, []) := by
  unfold extractBitcoinAt
  rw [expectLit_append]
  have h2 : t.takeWhile isBase58 = t := takeWhile_all ht
  have h4 : t.drop t.length = [] := by simp
  simp only [h2, List.take_of_length_le hlen2, h4]
  rw [if_pos hh, if_neg (by omega : ¬ t.length < 25)]

theorem extract_bitcoin_amt (h : Char) (t amt : Str)
    (hh : h = '1' ∨ h = '3') (ht : ∀ c ∈ t, isBase58 c = true)
    (hlen1 : 25 ≤ t.length) (hlen2 : t.length ≤ 34)
    (hch : ∀ c ∈ amt, isDigitChar c = true ∨ c = '.') :
    extractPaymentInfo ("bitcoin:".data ++ ((h :: t) ++ ('?' :: ("amount=".data ++ amt)))) =
      .bitcoin (h :: t) (some amt) none none
        ("bitcoin:".data ++ ((h :: t) ++ ('?' :: ("amount=".data ++ amt)))) := by
  have hq : ∀ c ∈ ("amount=".data ++ amt), (fun c => decide (c ≠ '\n')) c = true := by
    intro c hc
    rcases List.mem_append.mp hc with hm | hm
    · fin_cases hm <;> decide
    · exact decimal_no_newline hch c hm
  have hat := extractBitcoinAt_query h t ("amount=".data ++ amt) hh ht hlen1 hlen2
  rw [takeWhile_all hq] at hat
  have heq := extractPaymentInfo_eq_bitcoin (getType_bitcoin _) (searchFrom_eq_of_pos hat)
  rw [heq]
  have hpp := parseParams_amount hch
  have ham : getParam "amount".data ("amount=".data ++ amt) = some amt := by
    unfold getParam
    rw [hpp]
    simp [List.find?]
  have hlb : getParam "label".data ("amount=".data ++ amt) = none := by
    unfold getParam
    rw [hpp]
    simp [List.find?]
  have hms : getParam "message".data ("amount=".data ++ amt) = none := by
    unfold getParam
    rw [hpp]
    simp [List.find?]
  rw [ham, hlb, hms]

theorem extract_bitcoin_noamt (h : Char) (t : Str)
    (hh : h = '1' ∨ h = '3') (ht : ∀ c ∈ t, isBase58 c = true)
    (hlen1 : 25 ≤ t.length) (hlen2 : t.length ≤ 34) :
    extractPaymentInfo ("bitcoin:".data ++ (h :: t)) =
      .bitcoin (h :: t) none none none ("bitcoin:".data ++ (h :: t)) := by
  have hat := extractBitcoinAt_plain h t hh ht hlen1 hlen2
  have heq := extractPaymentInfo_eq_bitcoin (getType_bitcoin _) (searchFrom_eq_of_pos hat)
  rw [heq]
  rfl

theorem extractEthereumAt_query (h40 q : Str) (hlen : h40.length = 40)
    (hhex : h40.all isHexChar = true) :
    extractEthereumAt ("ethereum:".data ++ (("0x".data ++ h40) ++ ('?' :: q))) =
      some ("0x".data ++ h40, q.takeWhile (fun c => c ≠ '\n')) := by
  unfold extractEthereumAt
  rw [expectLit_append]
  rw [show ("0x".data ++ h40) ++ ('?' :: q) = "0x".data ++ (h40 ++ '?' :: q) from
    List.append_assoc _ _ _]
  simp only []
  rw [expectLit_append]
  have h2 : (h40 ++ '?' :: q).take 40 = h40 := by
    rw [← hlen]
    exact List.take_left h40 _
  have h4 : (h40 ++ '?' :: q).drop 40 = '?' :: q := by
    rw [← hlen]
    exact List.drop_left h40 _
  simp only [h2, h4]
  rw [if_pos ⟨hlen, hhex⟩]

theorem extractEthereumAt_plain (h40 : Str) (hlen : h40.length = 40)
    (hhex : h40.all isHexChar = true) :
    extractEthereumAt ("ethereum:".data ++ ("0x".data ++ h40)) =
      some ("0x".data ++ h40, []) := by
  unfold extractEthereumAt
  rw [expectLit_append]
  simp only []
  rw [expectLit_append]
  have h2 : h40.take 40 = h40 := by
    rw [← hlen]
    exact List.take_length h40
  have h4 : h40.drop 40 = [] := by
    rw [← hlen]
    exact List.drop_length h40
  simp only [h2, h4]
  rw [if_pos ⟨hlen, hhex⟩]

theorem parseParams_value {amt : Str} (hch : ∀ c ∈ amt, isDigitChar c = true ∨ c = '.') :
    parseParams ("value=".data ++ amt) = [("value".data, amt)] := by
  rw [show ("value=".data ++ amt) = "value".data ++ '=' :: amt from rfl]
  rw [parseParams_single "value".data amt (by decide) (decimal_ne_amp hch)]
  rw [decimal_decode hch]
  rfl

theorem extract_ethereum_amt (h40 amt : Str) (hlen : h40.length = 40)
    (hhex : h40.all isHexChar = true)
    (hch : ∀ c ∈ amt, isDigitChar c = true ∨ c = '.') :
    extractPaymentInfo ("ethereum:".data ++ (("0x".data ++ h40) ++ ('?' :: ("value=".data ++ amt)))) =
      .ethereum ("0x".data ++ h40) (some amt) none none
        ("ethereum:".data ++ (("0x".data ++ h40) ++ ('?' :: ("value=".data ++ amt)))) := by
  have hq : ∀ c ∈ ("value=".data ++ amt), (fun c => decide (c ≠ '\n')) c = true := by
    intro c hc
    rcases List.mem_append.mp hc with hm | hm
    · fin_cases hm <;> decide
    · exact decimal_no_newline hch c hm
  have hat := extractEthereumAt_query h40 ("value=".data ++ amt) hlen hhex
  rw [takeWhile_all hq] at hat
  have heq := extractPaymentInfo_eq_ethereum (getType_ethereum _) (searchFrom_eq_of_pos hat)
  rw [heq]
  have hpp := parseParams_value hch
  have hvv : getParam "value".data ("value=".data ++ amt) = some amt := by
    unfold getParam
    rw [hpp]
    simp [List.find?]
  have hg1 : getParam "gas".data ("value=".data ++ amt) = none := by
    unfold getParam
    rw [hpp]
    simp [List.find?]
  have hg2 : getParam "gasPrice".data ("value=".data ++ amt) = none := by
    unfold getParam
    rw [hpp]
    simp [List.find?]
  rw [hvv, hg1, hg2]

theorem extract_ethereum_noamt (h40 : Str) (hlen : h40.length = 40)
    (hhex : h40.all isHexChar = true) :
    extractPaymentInfo ("ethereum:".data ++ ("0x".data ++ h40)) =
      .ethereum ("0x".data ++ h40) none none none
        ("ethereum:".data ++ ("0x".data ++ h40)) := by
  have hat := extractEthereumAt_plain h40 hlen hhex
  have heq := extractPaymentInfo_eq_ethereum (getType_ethereum _) (searchFrom_eq_of_pos hat)
  rw [heq]
  rfl

theorem upiId_ne {id : Str} (hcls : id.all (fun c => isPaypalChar c || c = '@') = true)
    (c0 : Char) (h1 : isPaypalChar c0 = false) (h2 : c0 ≠ '@') : ∀ c ∈ id, c ≠ c0 := by
  intro c hc heq
  subst heq
  have hx := List.all_eq_true.mp hcls c hc
  rcases Bool.or_eq_true_iff.mp hx with hx | hx
  · rw [h1] at hx
    exact Bool.noConfusion hx
  · exact h2 (by simpa using hx)

theorem enc_ne {nm : Str} (hasc : asciiStr nm = true) (c0 : Char)
    (h1 : isUnreservedURI c0 = false) (h2 : c0 ≠ '%') (h3 : isHexChar c0 = false) :
    ∀ c ∈ encodeURIComponent nm, c ≠ c0 := by
  intro c hc heq
  exact not_mem_encodeURIComponent hasc c0 h1 h2 h3 (heq ▸ hc)

theorem decimal_ne {amt : Str} (hch : ∀ c ∈ amt, isDigitChar c = true ∨ c = '.')
    (c0 : Char) (h0 : isDigitChar c0 = false) (h1 : c0 ≠ '.') : ∀ a ∈ amt, a ≠ c0 := by
  intro a ha heq
  subst heq
  rcases hch a ha with h | h
  · rw [h0] at h
    exact Bool.noConfusion h
  · exact h1 h

theorem decodePlus_of_upiId {id : Str}
    (hcls : id.all (fun c => isPaypalChar c || c = '@') = true) : decodePlus id = id := by
  apply decodePlus_plain
  intro c hc
  exact ⟨(upiId_ne hcls '%' (by decide) (by decide) c hc),
    (upiId_ne hcls '+' (by decide) (by decide) c hc)⟩

theorem extract_upi_amt (id nm amt : Str)
    (hcls : id.all (fun c => isPaypalChar c || c = '@') = true)
    (hasc : asciiStr nm = true)
    (hch : ∀ c ∈ amt, isDigitChar c = true ∨ c = '.') :
    extractPaymentInfo ("upi://pay?pa=".data ++ (id ++ ("&pn=".data ++
        (encodeURIComponent nm ++ ("&am=".data ++ (amt ++ "&cu=INR".data)))))) =
      .upi (some id) (some nm) (some amt) (some "INR".data) none none none
        ("upi://pay?pa=".data ++ (id ++ ("&pn=".data ++
          (encodeURIComponent nm ++ ("&am=".data ++ (amt ++ "&cu=INR".data)))))) := by
  have hnq : ∀ x ∈ ("pa=".data ++ (id ++ ("&pn=".data ++
      (encodeURIComponent nm ++ ("&am=".data ++ (amt ++ "&cu=INR".data)))))), x ≠ '?' := by
    intro x hx
    rcases List.mem_append.mp hx with hm | hm
    · fin_cases hm <;> decide
    rcases List.mem_append.mp hm with hm | hm
    · exact upiId_ne hcls '?' (by decide) (by decide) x hm
    rcases List.mem_append.mp hm with hm | hm
    · fin_cases hm <;> decide
    rcases List.mem_append.mp hm with hm | hm
    · exact enc_ne hasc '?' (by decide) (by decide) (by decide) x hm
    rcases List.mem_append.mp hm with hm | hm
    · fin_cases hm <;> decide
    rcases List.mem_append.mp hm with hm | hm
    · exact decimal_ne hch '?' (by decide) (by decide) x hm
    · fin_cases hm <;> decide
  have hq : (splitOnChar '?' ("upi://pay?pa=".data ++ (id ++ ("&pn=".data ++
      (encodeURIComponent nm ++ ("&am=".data ++ (amt ++ "&cu=INR".data))))))).getD 1 [] =
      "pa=".data ++ (id ++ ("&pn=".data ++
        (encodeURIComponent nm ++ ("&am=".data ++ (amt ++ "&cu=INR".data))))) := by
    rw [show ("upi://pay?pa=".data ++ (id ++ ("&pn=".data ++
        (encodeURIComponent nm ++ ("&am=".data ++ (amt ++ "&cu=INR".data)))))) =
      "upi://pay".data ++ '?' :: ("pa=".data ++ (id ++ ("&pn=".data ++
        (encodeURIComponent nm ++ ("&am=".data ++ (amt ++ "&cu=INR".data)))))) from rfl]
    rw [splitOnChar_append _ _ (by decide)]
    rw [splitOnChar_not_mem hnq]
    rfl
  have hpp : parseParams ("pa=".data ++ (id ++ ("&pn=".data ++
      (encodeURIComponent nm ++ ("&am=".data ++ (amt ++ "&cu=INR".data)))))) =
      [("pa".data, id), ("pn".data, nm), ("am".data, amt), ("cu".data, "INR".data)] := by
    rw [show ("pa=".data ++ (id ++ ("&pn=".data ++
        (encodeURIComponent nm ++ ("&am=".data ++ (amt ++ "&cu=INR".data)))))) =
      ("pa".data ++ '=' :: id) ++ '&' :: ("pn=".data ++
        (encodeURIComponent nm ++ ("&am=".data ++ (amt ++ "&cu=INR".data)))) from rfl]
    rw [parseParams_cons "pa".data id _ (by decide)
      (fun a ha => upiId_ne hcls '&' (by decide) (by decide) a ha)]
    rw [show ("pn=".data ++ (encodeURIComponent nm ++
        ("&am=".data ++ (amt ++ "&cu=INR".data)))) =
      ("pn".data ++ '=' :: encodeURIComponent nm) ++ '&' ::
        ("am=".data ++ (amt ++ "&cu=INR".data)) from rfl]
    rw [parseParams_cons "pn".data (encodeURIComponent nm) _ (by decide)
      (enc_ne hasc '&' (by decide) (by decide) (by decide))]
    rw [show ("am=".data ++ (amt ++ "&cu=INR".data)) =
      ("am".data ++ '=' :: amt) ++ '&' :: "cu=INR".data from rfl]
    rw [parseParams_cons "am".data amt _ (by decide) (decimal_ne_amp hch)]
    rw [show ("cu=INR".data : Str) = "cu".data ++ '=' :: "INR".data from rfl]
    rw [parseParams_single "cu".data "INR".data (by decide) (by decide)]
    rw [decodePlus_of_upiId hcls, decodePlus_encode nm hasc, decimal_decode hch]
    rfl
  have heq := extractPaymentInfo_eq_upi (getType_upi (id ++ ("&pn=".data ++
    (encodeURIComponent nm ++ ("&am=".data ++ (amt ++ "&cu=INR".data))))))
  rw [heq, hq]
  have g1 : getParam "pa".data ("pa=".data ++ (id ++ ("&pn=".data ++
      (encodeURIComponent nm ++ ("&am=".data ++ (amt ++ "&cu=INR".data)))))) = some id := by
    unfold getParam
    rw [hpp]
    simp [List.find?]
  have g2 : getParam "pn".data ("pa=".data ++ (id ++ ("&pn=".data ++
      (encodeURIComponent nm ++ ("&am=".data ++ (amt ++ "&cu=INR".data)))))) = some nm := by
    unfold getParam
    rw [hpp]
    simp [List.find?]
  have g3 : getParam "am".data ("pa=".data ++ (id ++ ("&pn=".data ++
      (encodeURIComponent nm ++ ("&am=".data ++ (amt ++ "&cu=INR".data)))))) = some amt := by
    unfold getParam
    rw [hpp]
    simp [List.find?]
  have g4 : getParam "cu".data ("pa=".data ++ (id ++ ("&pn=".data ++
      (encodeURIComponent nm ++ ("&am=".data ++ (amt ++ "&cu=INR".data)))))) =
      some "INR".data := by
    unfold getParam
    rw [hpp]
    simp [List.find?]
  have g5 : getParam "tid".data ("pa=".data ++ (id ++ ("&pn=".data ++
      (encodeURIComponent nm ++ ("&am=".data ++ (amt ++ "&cu=INR".data)))))) = none := by
    unfold getParam
    rw [hpp]
    simp [List.find?]
  have g6 : getParam "tr".data ("pa=".data ++ (id ++ ("&pn=".data ++
      (encodeURIComponent nm ++ ("&am=".data ++ (amt ++ "&cu=INR".data)))))) = none := by
    unfold getParam
    rw [hpp]
    simp [List.find?]
  have g7 : getParam "tn".data ("pa=".data ++ (id ++ ("&pn=".data ++
      (encodeURIComponent nm ++ ("&am=".data ++ (amt ++ "&cu=INR".data)))))) = none := by
    unfold getParam
    rw [hpp]
    simp [List.find?]
  rw [g1, g2, g3, g4, g5, g6, g7]

theorem extract_upi_noamt (id nm : Str)
    (hcls : id.all (fun c => isPaypalChar c || c = '@') = true)
    (hasc : asciiStr nm = true) :
    extractPaymentInfo ("upi://pay?pa=".data ++ (id ++ ("&pn=".data ++ encodeURIComponent nm))) =
      .upi (some id) (some nm) none none none none none
        ("upi://pay?pa=".data ++ (id ++ ("&pn=".data ++ encodeURIComponent nm))) := by
  have hnq : ∀ x ∈ ("pa=".data ++ (id ++ ("&pn=".data ++ encodeURIComponent nm))), x ≠ '?' := by
    intro x hx
    rcases List.mem_append.mp hx with hm | hm
    · fin_cases hm <;> decide
    rcases List.mem_append.mp hm with hm | hm
    · exact upiId_ne hcls '?' (by decide) (by decide) x hm
    rcases List.mem_append.mp hm with hm | hm
    · fin_cases hm <;> decide
    · exact enc_ne hasc '?' (by decide) (by decide) (by decide) x hm
  have hq : (splitOnChar '?' ("upi://pay?pa=".data ++
      (id ++ ("&pn=".data ++ encodeURIComponent nm)))).getD 1 [] =
      "pa=".data ++ (id ++ ("&pn=".data ++ encodeURIComponent nm)) := by
    rw [show ("upi://pay?pa=".data ++ (id ++ ("&pn=".data ++ encodeURIComponent nm))) =
      "upi://pay".data ++ '?' :: ("pa=".data ++
        (id ++ ("&pn=".data ++ encodeURIComponent nm))) from rfl]
    rw [splitOnChar_append _ _ (by decide)]
    rw [splitOnChar_not_mem hnq]
    rfl
  have hpp : parseParams ("pa=".data ++ (id ++ ("&pn=".data ++ encodeURIComponent nm))) =
      [("pa".data, id), ("pn".data, nm)] := by
    rw [show ("pa=".data ++ (id ++ ("&pn=".data ++ encodeURIComponent nm))) =
      ("pa".data ++ '=' :: id) ++ '&' :: ("pn=".data ++ encodeURIComponent nm) from rfl]
    rw [parseParams_cons "pa".data id _ (by decide)
      (fun a ha => upiId_ne hcls '&' (by decide) (by decide) a ha)]
    rw [show ("pn=".data ++ encodeURIComponent nm) =
      "pn".data ++ '=' :: encodeURIComponent nm from rfl]
    rw [parseParams_single "pn".data (encodeURIComponent nm) (by decide)
      (enc_ne hasc '&' (by decide) (by decide) (by decide))]
    rw [decodePlus_of_upiId hcls, decodePlus_encode nm hasc]
    rfl
  have heq := extractPaymentInfo_eq_upi (getType_upi (id ++ ("&pn=".data ++ encodeURIComponent nm)))
  rw [heq, hq]
  have g1 : getParam "pa".data ("pa=".data ++ (id ++ ("&pn=".data ++ encodeURIComponent nm))) =
      some id := by
    unfold getParam
    rw [hpp]
    simp [List.find?]
  have g2 : getParam "pn".data ("pa=".data ++ (id ++ ("&pn=".data ++ encodeURIComponent nm))) =
      some nm := by
    unfold getParam
    rw [hpp]
    simp [List.find?]
  have gn : ∀ k : Str, k ≠ "pa".data → k ≠ "pn".data →
      getParam k ("pa=".data ++ (id ++ ("&pn=".data ++ encodeURIComponent nm))) = none := by
    intro k hk1 hk2
    unfold getParam
    rw [hpp]
    simp only [List.find?]
    rw [beq_eq_false_iff_ne.mpr (Ne.symm hk1), beq_eq_false_iff_ne.mpr (Ne.symm hk2)]
    rfl
  rw [g1, g2, gn "am".data (by decide) (by decide), gn "cu".data (by decide) (by decide),
    gn "tid".data (by decide) (by decide), gn "tr".data (by decide) (by decide),
    gn "tn".data (by decide) (by decide)]

theorem ibanFormat_facts {code : Str} (hfmt : ibanFormatOk code = true) :
    15 ≤ code.length ∧ code.length ≤ 31 ∧
    (code.take 2).all isUpperAZ = true ∧ ((code.drop 2).take 2).all isDigitChar = true ∧
    ((code.drop 4).take 4).all isUpperDigit = true ∧
    ((code.drop 8).take 7).all isDigitChar = true ∧
    (code.drop 15).all isUpperDigit = true := by
  simp only [ibanFormatOk, Bool.and_eq_true, decide_eq_true_eq] at hfmt
  obtain ⟨⟨⟨⟨⟨⟨h1, h2⟩, h3⟩, h4⟩, h5⟩, h6⟩, h7⟩ := hfmt
  exact ⟨h1, h2, h3, h4, h5, h6, h7⟩

theorem extractIBANAt_query (code q : Str) (hfmt : ibanFormatOk code = true) :
    extractIBANAt ("iban:".data ++ (code ++ ('?' :: q))) =
      some (code, q.takeWhile (fun c => c ≠ '\n')) := by
  obtain ⟨hl15, hl31, ha1, ha2, ha3, ha4, ha5⟩ := ibanFormat_facts hfmt
  unfold extractIBANAt
  rw [expectLit_append]
  simp only []
  have e1 : (code ++ '?' :: q).take 2 = code.take 2 :=
    List.take_append_of_le_length (by omega)
  have e2 : (code ++ '?' :: q).drop 2 = code.drop 2 ++ '?' :: q :=
    List.drop_append_of_le_length (by omega)
  have e3 : (code ++ '?' :: q).drop 4 = code.drop 4 ++ '?' :: q :=
    List.drop_append_of_le_length (by omega)
  have e4 : (code ++ '?' :: q).drop 8 = code.drop 8 ++ '?' :: q :=
    List.drop_append_of_le_length (by omega)
  have e5 : (code ++ '?' :: q).drop 15 = code.drop 15 ++ '?' :: q :=
    List.drop_append_of_le_length (by omega)
  have f2 : (code.drop 2 ++ '?' :: q).take 2 = (code.drop 2).take 2 :=
    List.take_append_of_le_length (by simp [List.length_drop]; omega)
  have f3 : (code.drop 4 ++ '?' :: q).take 4 = (code.drop 4).take 4 :=
    List.take_append_of_le_length (by simp [List.length_drop]; omega)
  have f4 : (code.drop 8 ++ '?' :: q).take 7 = (code.drop 8).take 7 :=
    List.take_append_of_le_length (by simp [List.length_drop]; omega)
  have ftail : (code.drop 15 ++ '?' :: q).takeWhile isUpperDigit = code.drop 15 :=
    takeWhile_append_all _ (List.all_eq_true.mp ha5) (fun c hh => by
      simp only [List.head?_cons, Option.some.injEq] at hh
      subst hh; decide)
  have ftail2 : (code.drop 15).take 16 = code.drop 15 :=
    List.take_of_length_le (by simp [List.length_drop]; omega)
  have hlen : 15 + (code.drop 15).length = code.length := by
    simp [List.length_drop]
    omega
  have gdrop : (code ++ '?' :: q).drop (15 + (code.drop 15).length) = '?' :: q := by
    rw [hlen]
    exact List.drop_left code _
  have gtake : (code ++ '?' :: q).take (15 + (code.drop 15).length) = code := by
    rw [hlen]
    exact List.take_left code _
  simp only [e1, e2, e3, e4, e5, f2, f3, f4, ftail, ftail2, gdrop, gtake]
  rw [if_pos]
  refine ⟨?_, ha1, ?_, ha2, ?_, ha3, ?_, ha4⟩
  · simp [List.length_take]
    omega
  · simp [List.length_take, List.length_drop]
    omega
  · simp [List.length_take, List.length_drop]
    omega
  · simp [List.length_take, List.length_drop]
    omega

theorem extract_iban_core (code q : Str) (hfmt : ibanFormatOk code = true)
    (hq : q.takeWhile (fun c => c ≠ '\n') = q) :
    extractPaymentInfo ("iban:".data ++ (code ++ ('?' :: q))) =
      .iban code (getParam "beneficiary".data q) (getParam "amount".data q)
        (getParam "currency".data q) (getParam "reference".data q)
        ("iban:".data ++ (code ++ ('?' :: q))) := by
  have hat := extractIBANAt_query code q hfmt
  rw [hq] at hat
  exact extractPaymentInfo_eq_iban (getType_iban _) (searchFrom_eq_of_pos hat)

theorem extract_iban_amt (code nm amt : Str) (hfmt : ibanFormatOk code = true)
    (hasc : asciiStr nm = true)
    (hch : ∀ c ∈ amt, isDigitChar c = true ∨ c = '.') :
    extractPaymentInfo ("iban:".data ++ (code ++ ('?' :: ("beneficiary=".data ++
        (encodeURIComponent nm ++ ("&amount=".data ++ (amt ++ "&currency=EUR".data))))))) =
      .iban code (some nm) (some amt) (some "EUR".data) none
        ("iban:".data ++ (code ++ ('?' :: ("beneficiary=".data ++
          (encodeURIComponent nm ++ ("&amount=".data ++ (amt ++ "&currency=EUR".data))))))) := by
  have hqnl : ∀ c ∈ ("beneficiary=".data ++
      (encodeURIComponent nm ++ ("&amount=".data ++ (amt ++ "&currency=EUR".data)))),
      (fun c => decide (c ≠ '\n')) c = true := by
    intro c hc
    rcases List.mem_append.mp hc with hm | hm
    · fin_cases hm <;> decide
    rcases List.mem_append.mp hm with hm | hm
    · exact decide_eq_true (enc_ne hasc '\n' (by decide) (by decide) (by decide) c hm)
    rcases List.mem_append.mp hm with hm | hm
    · fin_cases hm <;> decide
    rcases List.mem_append.mp hm with hm | hm
    · exact decimal_no_newline hch c hm
    · fin_cases hm <;> decide
  have hpp : parseParams ("beneficiary=".data ++
      (encodeURIComponent nm ++ ("&amount=".data ++ (amt ++ "&currency=EUR".data)))) =
      [("beneficiary".data, nm), ("amount".data, amt), ("currency".data, "EUR".data)] := by
    rw [show ("beneficiary=".data ++
        (encodeURIComponent nm ++ ("&amount=".data ++ (amt ++ "&currency=EUR".data)))) =
      ("beneficiary".data ++ '=' :: encodeURIComponent nm) ++ '&' ::
        ("amount=".data ++ (amt ++ "&currency=EUR".data)) from rfl]
    rw [parseParams_cons "beneficiary".data (encodeURIComponent nm) _ (by decide)
      (enc_ne hasc '&' (by decide) (by decide) (by decide))]
    rw [show ("amount=".data ++ (amt ++ "&currency=EUR".data)) =
      ("amount".data ++ '=' :: amt) ++ '&' :: "currency=EUR".data from rfl]
    rw [parseParams_cons "amount".data amt _ (by decide) (decimal_ne_amp hch)]
    rw [show ("currency=EUR".data : Str) = "currency".data ++ '=' :: "EUR".data from rfl]
    rw [parseParams_single "currency".data "EUR".data (by decide) (by decide)]
    rw [decodePlus_encode nm hasc, decimal_decode hch]
    rfl
  have hcore := extract_iban_core code ("beneficiary=".data ++
      (encodeURIComponent nm ++ ("&amount=".data ++ (amt ++ "&currency=EUR".data)))) hfmt
    (takeWhile_all hqnl)
  rw [hcore]
  have g1 : getParam "beneficiary".data ("beneficiary=".data ++
      (encodeURIComponent nm ++ ("&amount=".data ++ (amt ++ "&currency=EUR".data)))) =
      some nm := by
    unfold getParam
    rw [hpp]
    simp [List.find?]
  have g2 : getParam "amount".data ("beneficiary=".data ++
      (encodeURIComponent nm ++ ("&amount=".data ++ (amt ++ "&currency=EUR".data)))) =
      some amt := by
    unfold getParam
    rw [hpp]
    simp [List.find?]
  have g3 : getParam "currency".data ("beneficiary=".data ++
      (encodeURIComponent nm ++ ("&amount=".data ++ (amt ++ "&currency=EUR".data)))) =
      some "EUR".data := by
    unfold getParam
    rw [hpp]
    simp [List.find?]
  have g4 : getParam "reference".data ("beneficiary=".data ++
      (encodeURIComponent nm ++ ("&amount=".data ++ (amt ++ "&currency=EUR".data)))) =
      none := by
    unfold getParam
    rw [hpp]
    simp [List.find?]
  rw [g1, g2, g3, g4]

theorem extract_iban_noamt (code nm : Str) (hfmt : ibanFormatOk code = true)
    (hasc : asciiStr nm = true) :
    extractPaymentInfo ("iban:".data ++ (code ++ ('?' :: ("beneficiary=".data ++
        encodeURIComponent nm)))) =
      .iban code (some nm) none none none
        ("iban:".data ++ (code ++ ('?' :: ("beneficiary=".data ++
          encodeURIComponent nm)))) := by
  have hqnl : ∀ c ∈ ("beneficiary=".data ++ encodeURIComponent nm),
      (fun c => decide (c ≠ '\n')) c = true := by
    intro c hc
    rcases List.mem_append.mp hc with hm | hm
    · fin_cases hm <;> decide
    · exact decide_eq_true (enc_ne hasc '\n' (by decide) (by decide) (by decide) c hm)
  have hpp : parseParams ("beneficiary=".data ++ encodeURIComponent nm) =
      [("beneficiary".data, nm)] := by
    rw [show ("beneficiary=".data ++ encodeURIComponent nm) =
      "beneficiary".data ++ '=' :: encodeURIComponent nm from rfl]
    rw [parseParams_single "beneficiary".data (encodeURIComponent nm) (by decide)
      (enc_ne hasc '&' (by decide) (by decide) (by decide))]
    rw [decodePlus_encode nm hasc]
    rfl
  have hcore := extract_iban_core code ("beneficiary=".data ++ encodeURIComponent nm) hfmt
    (takeWhile_all hqnl)
  rw [hcore]
  have g1 : getParam "beneficiary".data ("beneficiary=".data ++ encodeURIComponent nm) =
      some nm := by
    unfold getParam
    rw [hpp]
    simp [List.find?]
  have gn : ∀ k : Str, k ≠ "beneficiary".data →
      getParam k ("beneficiary=".data ++ encodeURIComponent nm) = none := by
    intro k hk
    unfold getParam
    rw [hpp]
    simp only [List.find?]
    rw [beq_eq_false_iff_ne.mpr (Ne.symm hk)]
    rfl
  rw [g1, gn "amount".data (by decide), gn "currency".data (by decide),
    gn "reference".data (by decide)]

theorem ne_nil_of_amtGuard {a : Str} (h : amtGuard a = true) : a ≠ [] := by
  intro he
  subst he
  exact absurd h (by decide)

theorem decimal_of_canonical {a : Str} (hc : canonicalAmount a = true) (hne : a ≠ []) :
    decimalNumeral a = true := by
  simp only [canonicalAmount, Bool.or_eq_true] at hc
  rcases hc with h | h
  · exact absurd h (by simp [isEmpty_false_of_ne hne])
  · exact h

theorem bfalse_of_not {b : Bool} (h : ¬ b = true) : b = false := by
  cases b
  · rfl
  · exact absurd rfl h

theorem amtOpt_pos {a : Str} (h : amtGuard a = true) : amtOpt a = some a := by
  simp only [amtOpt, h, if_true]

theorem amtOpt_neg {a : Str} (h : amtGuard a = false) : amtOpt a = none := by
  simp only [amtOpt, h, Bool.false_eq_true, if_false]

/-- C4: for a validator-accepted payment instruction in canonical form
(clean uppercase IBAN code, plain-decimal amounts, ASCII names, url-kind
URLs not carrying the PayPal prefix), decoding the generated string
recovers exactly the kind-specific structured fields the instruction
encodes. -/
theorem payment_decode_roundtrip (p : PaymentData) (s : Str)
    (hv : validatePaymentData p = true) (hc : canonicalPayment p = true)
    (hg : generatePaymentString p = .returns s) :
    extractPaymentInfo s = expectedPaymentInfo p := by
  by_cases h1 : p.paymentType = "paypal".data
  · unfold validatePaymentData at hv
    rw [if_pos h1] at hv
    unfold canonicalPayment at hc
    rw [if_pos h1] at hc
    unfold generatePaymentString at hg
    rw [if_pos h1] at hg
    injection hg with hs
    subst hs
    unfold expectedPaymentInfo
    rw [if_pos h1]
    simp only [Bool.and_eq_true] at hv
    obtain ⟨⟨⟨⟨hreq, hcls⟩, hlen3⟩, hlen50⟩, hamt⟩ := hv
    have hucls : ∀ c ∈ p.paypalUsername, isPaypalChar c = true := List.all_eq_true.mp hcls
    have hune : p.paypalUsername ≠ [] := by
      intro he
      have h3 := of_decide_eq_true hlen3
      rw [he] at h3
      exact absurd h3 (by decide)
    by_cases hga : amtGuard p.paypalAmount = true
    · have hne := ne_nil_of_amtGuard hga
      have hch := decimalNumeral_chars (decimal_of_canonical hc hne)
      rw [amtOpt_pos hga]
      unfold generatePayPalString
      rw [if_pos hga]
      simp only [List.append_assoc]
      exact extract_paypal_amt _ _ hucls hune hne hch
    · rw [amtOpt_neg (bfalse_of_not hga)]
      unfold generatePayPalString
      rw [if_neg hga]
      simp only [List.append_assoc, List.append_nil]
      exact extract_paypal_noamt _ hucls hune
  by_cases h2 : p.paymentType = "bitcoin".data
  · unfold validatePaymentData at hv
    rw [if_neg h1, if_pos h2] at hv
    unfold canonicalPayment at hc
    rw [if_neg h1, if_pos h2] at hc
    unfold generatePaymentString at hg
    rw [if_neg h1, if_pos h2] at hg
    injection hg with hs
    subst hs
    unfold expectedPaymentInfo
    rw [if_neg h1, if_pos h2]
    simp only [Bool.and_eq_true] at hv
    obtain ⟨⟨hreq, hbtc⟩, hamt⟩ := hv
    obtain ⟨hd, t, haddr⟩ : ∃ hd t, p.cryptoAddress = hd :: t := by
      cases hA : p.cryptoAddress with
      | nil => rw [hA] at hbtc; exact absurd hbtc (by decide)
      | cons hd t => exact ⟨hd, t, rfl⟩
    rw [haddr] at hbtc
    simp only [btcAddrOk, Bool.and_eq_true, Bool.or_eq_true, decide_eq_true_eq] at hbtc
    obtain ⟨⟨⟨hhd, hbase⟩, hl1⟩, hl2⟩ := hbtc
    have ht58 : ∀ c ∈ t, isBase58 c = true := List.all_eq_true.mp hbase
    by_cases hga : amtGuard p.cryptoAmount = true
    · have hne := ne_nil_of_amtGuard hga
      have hch := decimalNumeral_chars (decimal_of_canonical hc hne)
      rw [amtOpt_pos hga]
      unfold generateBitcoinString
      rw [haddr, if_pos hga]
      simp only [List.append_assoc]
      exact extract_bitcoin_amt hd t _ hhd ht58 hl1 hl2 hch
    · rw [amtOpt_neg (bfalse_of_not hga)]
      unfold generateBitcoinString
      rw [haddr, if_neg hga]
      simp only [List.append_assoc, List.append_nil]
      exact extract_bitcoin_noamt hd t hhd ht58 hl1 hl2
  by_cases h3 : p.paymentType = "ethereum".data
  · unfold validatePaymentData at hv
    rw [if_neg h1, if_neg h2, if_pos h3] at hv
    unfold canonicalPayment at hc
    rw [if_neg h1, if_neg h2, if_pos h3] at hc
    unfold generatePaymentString at hg
    rw [if_neg h1, if_neg h2, if_pos h3] at hg
    injection hg with hs
    subst hs
    unfold expectedPaymentInfo
    rw [if_neg h1, if_neg h2, if_pos h3]
    simp only [Bool.and_eq_true] at hv
    obtain ⟨⟨hreq, heth⟩, hamt⟩ := hv
    simp only [ethAddrOk, Bool.and_eq_true, decide_eq_true_eq] at heth
    obtain ⟨⟨hpre, hhex⟩, hlen42⟩ := heth
    have hpre2 : "0x".data.isPrefixOf p.cryptoAddress = true := hpre
    obtain ⟨t0, ht0⟩ := List.isPrefixOf_iff_prefix.mp hpre2
    have hlen42b : p.cryptoAddress.length = 42 := hlen42
    rw [← ht0] at hlen42b
    rw [List.length_append] at hlen42b
    have hl2 : ("0x".data : Str).length = 2 := rfl
    rw [hl2] at hlen42b
    have hlen40 : t0.length = 40 := by omega
    have hhex2 : (p.cryptoAddress.drop 2).all isHexChar = true := hhex
    rw [← ht0] at hhex2
    rw [show ("0x".data ++ t0).drop 2 = t0 from rfl] at hhex2
    by_cases hga : amtGuard p.cryptoAmount = true
    · have hne := ne_nil_of_amtGuard hga
      have hch := decimalNumeral_chars (decimal_of_canonical hc hne)
      rw [amtOpt_pos hga]
      unfold generateEthereumString
      rw [← ht0, if_pos hga]
      simp only [List.append_assoc]
      exact extract_ethereum_amt t0 _ hlen40 hhex2 hch
    · rw [amtOpt_neg (bfalse_of_not hga)]
      unfold generateEthereumString
      rw [← ht0, if_neg hga]
      simp only [List.append_assoc, List.append_nil]
      exact extract_ethereum_noamt t0 hlen40 hhex2
  by_cases h4 : p.paymentType = "upi".data
  · unfold validatePaymentData at hv
    rw [if_neg h1, if_neg h2, if_neg h3, if_pos h4] at hv
    unfold canonicalPayment at hc
    rw [if_neg h1, if_neg h2, if_neg h3, if_pos h4] at hc
    unfold generatePaymentString at hg
    rw [if_neg h1, if_neg h2, if_neg h3, if_pos h4] at hg
    injection hg with hs
    subst hs
    unfold expectedPaymentInfo
    rw [if_neg h1, if_neg h2, if_neg h3, if_pos h4]
    simp only [Bool.and_eq_true] at hv hc
    obtain ⟨⟨⟨⟨hr1, hr2⟩, hupi⟩, hnm⟩, hamt⟩ := hv
    obtain ⟨hca, hasc⟩ := hc
    simp only [upiIdOk, Bool.and_eq_true] at hupi
    obtain ⟨⟨⟨hcls0, hone⟩, hhd⟩, hlast⟩ := hupi
    have hcls : p.upiId.all (fun c => isPaypalChar c || c = '@') = true := hcls0
    have hasc2 : asciiStr p.upiName = true := hasc
    by_cases hga : amtGuard p.upiAmount = true
    · have hne := ne_nil_of_amtGuard hga
      have hch := decimalNumeral_chars (decimal_of_canonical hca hne)
      rw [amtOpt_pos hga]
      unfold generateUPIString
      rw [if_pos hga, if_pos hga]
      simp only [List.append_assoc]
      exact extract_upi_amt _ _ _ hcls hasc2 hch
    · rw [amtOpt_neg (bfalse_of_not hga)]
      unfold generateUPIString
      rw [if_neg hga, if_neg hga]
      simp only [List.append_assoc, List.append_nil]
      exact extract_upi_noamt _ _ hcls hasc2
  by_cases h5 : p.paymentType = "iban".data
  · unfold canonicalPayment at hc
    rw [if_neg h1, if_neg h2, if_neg h3, if_neg h4, if_pos h5] at hc
    unfold generatePaymentString at hg
    rw [if_neg h1, if_neg h2, if_neg h3, if_neg h4, if_pos h5] at hg
    injection hg with hs
    subst hs
    unfold expectedPaymentInfo
    rw [if_neg h1, if_neg h2, if_neg h3, if_neg h4, if_pos h5]
    simp only [Bool.and_eq_true] at hc
    obtain ⟨⟨hca, hasc⟩, hfmt0⟩ := hc
    have hasc2 : asciiStr p.ibanName = true := hasc
    have hfmt : ibanFormatOk p.ibanCode = true := hfmt0
    by_cases hga : amtGuard p.ibanAmount = true
    · have hne := ne_nil_of_amtGuard hga
      have hch := decimalNumeral_chars (decimal_of_canonical hca hne)
      rw [amtOpt_pos hga]
      unfold generateIBANString
      rw [if_pos hga, if_pos hga]
      simp only [List.append_assoc]
      exact extract_iban_amt _ _ _ hfmt hasc2 hch
    · rw [amtOpt_neg (bfalse_of_not hga)]
      unfold generateIBANString
      rw [if_neg hga, if_neg hga]
      simp only [List.append_assoc, List.append_nil]
      exact extract_iban_noamt _ _ hfmt hasc2
  by_cases h6 : p.paymentType = "url".data
  · unfold validatePaymentData at hv
    rw [if_neg h1, if_neg h2, if_neg h3, if_neg h4, if_neg h5, if_pos h6] at hv
    unfold canonicalPayment at hc
    rw [if_neg h1, if_neg h2, if_neg h3, if_neg h4, if_neg h5] at hc
    unfold generatePaymentString at hg
    rw [if_neg h1, if_neg h2, if_neg h3, if_neg h4, if_neg h5, if_pos h6] at hg
    injection hg with hs
    subst hs
    unfold expectedPaymentInfo
    rw [if_neg h1, if_neg h2, if_neg h3, if_neg h4, if_neg h5]
    simp only [Bool.not_eq_true'] at hc
    have hnp : "https://paypal.me/".data.isPrefixOf p.paymentUrl = false := hc
    simp only [Bool.and_eq_true] at hv
    obtain ⟨hreq, hurl⟩ := hv
    simp only [urlOk, Bool.and_eq_true] at hurl
    obtain ⟨⟨hp, hlen⟩, hsusp⟩ := hurl
    have hp2 : ("http://".data.isPrefixOf p.paymentUrl ||
        "https://".data.isPrefixOf p.paymentUrl) = true := hp
    exact extractPaymentInfo_eq_url (getType_url _ hp2 hnp)
  · unfold validatePaymentData at hv
    rw [if_neg h1, if_neg h2, if_neg h3, if_neg h4, if_neg h5, if_neg h6] at hv
    exact absurd hv (by decide)

/-- A concrete validator-accepted, canonical PayPal instruction for the
round-trip witness. -/
def paypalSample : PaymentData :=
  ⟨"paypal".data, "johnsmith".data, "50.25".data, [], [], [], [], [], [], [], [], []⟩

theorem payment_decode_roundtrip_witness :
    validatePaymentData paypalSample = true ∧
    canonicalPayment paypalSample = true ∧
    generatePaymentString paypalSample = .returns "https://paypal.me/johnsmith/50.25".data ∧
    extractPaymentInfo "https://paypal.me/johnsmith/50.25".data =
      expectedPaymentInfo paypalSample :=
  ⟨by decide, by decide, by decide,
    payment_decode_roundtrip paypalSample "https://paypal.me/johnsmith/50.25".data
      (by decide) (by decide) (by decide)⟩
